import Mathlib

/-!
Verification of the geozero EWKB `WkbWriter` (`src/geozero-core/src/wkb_writer.rs`).

The writer is embedded shallowly: the mutable `WkbWriter<'a, W: Write>` struct
becomes a Lean structure threaded through every callback, and the byte sink
becomes a `List Nat` of appended bytes (each byte `< 256`).  `f64` coordinate
values are modelled by their 64-bit IEEE-754 bit patterns (the writer never
does float arithmetic; it only copies the 8 bytes of each value to the sink),
and `i32`/`u32` stores are modelled by two's complement / truncation on `Nat`
and `Int`.  A second embedding with a fallible sink (`Sink`, `WkbWriterF`)
models the `Result<()>` plumbing of the source for the error-propagation
property, and is related to the pure embedding by `models_processEvent`.
-/

namespace GeozeroWkb

/-- Byte order as in the `scroll` crate: big-endian or little-endian. -/
inductive Endian where
  | BE
  | LE
  deriving DecidableEq, Repr

/-- The four bytes of a `u32` store in the given byte order (little-endian:
least significant byte first).  Values `≥ 2^32` are truncated, as a `u32`
store would. -/
def put32 (e : Endian) (n : Nat) : List Nat :=
  match e with
  | .LE => [n % 256, n / 256 % 256, n / 65536 % 256, n / 16777216 % 256]
  | .BE => [n / 16777216 % 256, n / 65536 % 256, n / 256 % 256, n % 256]

/-- The eight bytes of a `u64`/`f64` store in the given byte order.  An `f64`
value is represented by its IEEE-754 bit pattern. -/
def put64 (e : Endian) (n : Nat) : List Nat :=
  match e with
  | .LE => [n % 256, n / 256 % 256, n / 65536 % 256, n / 16777216 % 256,
      n / 4294967296 % 256, n / 1099511627776 % 256,
      n / 281474976710656 % 256, n / 72057594037927936 % 256]
  | .BE => [n / 72057594037927936 % 256, n / 281474976710656 % 256,
      n / 1099511627776 % 256, n / 4294967296 % 256,
      n / 16777216 % 256, n / 65536 % 256, n / 256 % 256, n % 256]

/-- Two's-complement reinterpretation of an `i32` value as a `u32`,
as performed by storing the `i32` and reading the same four bytes. -/
def u32ofI32 (i : Int) : Nat := (i % 4294967296).toNat

/-- Modelled from the spec: the geometry type catalog of `wkb_common.rs`
(`WKBGeometryType`), which is not among the provided sources.  Closed
enumeration of the geometry kinds the writer emits (spec §3). -/
inductive WKBGeometryType where
  | Point
  | LineString
  | Polygon
  | MultiPoint
  | MultiLineString
  | MultiPolygon
  | GeometryCollection
  | CircularString
  | CompoundCurve
  | CurvePolygon
  | MultiCurve
  | MultiSurface
  | PolyhedralSurface
  | Tin
  | Triangle
  deriving DecidableEq, Repr

/-- Modelled from the spec: the fixed OGC/ISO WKB type code of each geometry
kind (spec §3: Point=1, LineString=2, Polygon=3, MultiPoint=4, …,
CircularString=8, …, Triangle=17), as used by the `as u32` cast in
`write_ewkb_header`.  The codes are confirmed by the repository's EWKB
round-trip test vectors (e.g. `0x0F` PolyhedralSurface, `0x10` Tin,
`0x11` Triangle). -/
def WKBGeometryType.code : WKBGeometryType → Nat
  | .Point => 1
  | .LineString => 2
  | .Polygon => 3
  | .MultiPoint => 4
  | .MultiLineString => 5
  | .MultiPolygon => 6
  | .GeometryCollection => 7
  | .CircularString => 8
  | .CompoundCurve => 9
  | .CurvePolygon => 10
  | .MultiCurve => 11
  | .MultiSurface => 12
  | .PolyhedralSurface => 15
  | .Tin => 16
  | .Triangle => 17

/-- Modelled from the spec: the one-byte order tags of `WKBByteOrder`
(`wkb_common.rs`, not among the provided sources): XDR (big-endian) = 0,
NDR (little-endian) = 1 (spec §6). -/
def byteOrderTag (e : Endian) : Nat :=
  match e with
  | .BE => 0
  | .LE => 1

/-- The `z`/`m` dimensionality flags of `geozero::CoordDimensions`
used by the writer (spec §3; the crate's `t`/`tm` members are never read
by this writer). -/
structure CoordDimensions where
  z : Bool
  m : Bool
  deriving DecidableEq, Repr

/-- `CoordDimensions::default()`: no Z, no M. -/
def CoordDimensions.default : CoordDimensions := ⟨false, false⟩

/-- The writer's nesting state (`GeomState` in the source). -/
inductive GeomState where
  | Normal
  | RingGeom
  | MultiPointGeom
  deriving DecidableEq, Repr

/-- The `WkbWriter` session state; the sink is the list of bytes appended
so far (`out`). -/
structure WkbWriter where
  dims : CoordDimensions
  srid : Option Int
  endian : Endian
  first_header : Bool
  geom_state : GeomState
  out : List Nat
  deriving DecidableEq, Repr

/-- `WkbWriter::new`: default dimensions, little-endian, no SRID,
first header pending, Normal nesting state, empty output. -/
def WkbWriter.new : WkbWriter :=
  { dims := CoordDimensions.default
    srid := none
    endian := .LE
    first_header := true
    geom_state := .Normal
    out := [] }

/-- Append bytes to the sink (the effect of the `iowrite` calls). -/
def WkbWriter.put (w : WkbWriter) (bs : List Nat) : WkbWriter :=
  { w with out := w.out ++ bs }

/-- `WkbWriter::write_ewkb_header`: byte-order tag, then the type code with
the Z / M / SRID flag bits OR'd in, then — in the first header only — the
optional SRID value; the `first_header` flag is cleared unconditionally
after the first header. -/
def WkbWriter.write_ewkb_header (w : WkbWriter) (wkb_type : WKBGeometryType) : WkbWriter :=
  let w := w.put [byteOrderTag w.endian]
  let type_id := wkb_type.code
  let type_id := if w.dims.z then type_id ||| 0x80000000 else type_id
  let type_id := if w.dims.m then type_id ||| 0x40000000 else type_id
  let type_id := if w.srid.isSome && w.first_header then type_id ||| 0x20000000 else type_id
  let w := w.put (put32 w.endian type_id)
  if w.first_header then
    let w := match w.srid with
      | some srid => w.put (put32 w.endian (u32ofI32 srid))
      | none => w
    { w with first_header := false }
  else
    w

/-- `WkbWriter::write_header`: dialect dispatch; the writer always emits
EWKB headers. -/
def WkbWriter.write_header (w : WkbWriter) (wkb_type : WKBGeometryType) : WkbWriter :=
  w.write_ewkb_header wkb_type

/-- `WkbWriter::write_wkb_header`: the plain OGC WKB header (byte-order tag
and bare type code, no flag bits, no SRID).  Present in the source but not
reachable from `write_header`. -/
def WkbWriter.write_wkb_header (w : WkbWriter) (wkb_type : WKBGeometryType) : WkbWriter :=
  let w := w.put [byteOrderTag w.endian]
  w.put (put32 w.endian wkb_type.code)

/-- `GeomProcessor::xy` impl: inside a multipoint, first a full Point
header, then the two coordinate values. -/
def WkbWriter.xy (w : WkbWriter) (x y : Nat) (_idx : Nat) : WkbWriter :=
  let w := if w.geom_state = .MultiPointGeom then w.write_header .Point else w
  let w := w.put (put64 w.endian x)
  w.put (put64 w.endian y)

/-- `GeomProcessor::coordinate` impl: inside a multipoint, first a full
Point header; then x, y, and the z and m values when present (`t` and `tm`
are ignored by the writer). -/
def WkbWriter.coordinate (w : WkbWriter) (x y : Nat) (z m : Option Nat)
    (_t : Option Nat) (_tm : Option Nat) (_idx : Nat) : WkbWriter :=
  let w := if w.geom_state = .MultiPointGeom then w.write_header .Point else w
  let w := w.put (put64 w.endian x)
  let w := w.put (put64 w.endian y)
  let w := match z with
    | some z => w.put (put64 w.endian z)
    | none => w
  match m with
  | some m => w.put (put64 w.endian m)
  | none => w

/-- `point_begin`: header only, no count field. -/
def WkbWriter.point_begin (w : WkbWriter) (_idx : Nat) : WkbWriter :=
  w.write_header .Point

/-- `multipoint_begin`: header, element count (`size as u32`), and enter
the MultiPointGeom nesting state. -/
def WkbWriter.multipoint_begin (w : WkbWriter) (size : Nat) (_idx : Nat) : WkbWriter :=
  let w := w.write_header .MultiPoint
  let w := w.put (put32 w.endian (size % 4294967296))
  { w with geom_state := .MultiPointGeom }

/-- `multipoint_end`: back to the Normal nesting state. -/
def WkbWriter.multipoint_end (w : WkbWriter) (_idx : Nat) : WkbWriter :=
  { w with geom_state := .Normal }

/-- `linestring_begin`: header unless inside a polygon/triangle ring,
then the element count. -/
def WkbWriter.linestring_begin (w : WkbWriter) (_tagged : Bool) (size : Nat)
    (_idx : Nat) : WkbWriter :=
  let w := if w.geom_state ≠ .RingGeom then w.write_header .LineString else w
  w.put (put32 w.endian (size % 4294967296))

/-- `multilinestring_begin`: header and element count. -/
def WkbWriter.multilinestring_begin (w : WkbWriter) (size : Nat) (_idx : Nat) : WkbWriter :=
  let w := w.write_header .MultiLineString
  w.put (put32 w.endian (size % 4294967296))

/-- `polygon_begin`: header, element count, and enter the RingGeom
nesting state. -/
def WkbWriter.polygon_begin (w : WkbWriter) (_tagged : Bool) (size : Nat)
    (_idx : Nat) : WkbWriter :=
  let w := w.write_header .Polygon
  let w := w.put (put32 w.endian (size % 4294967296))
  { w with geom_state := .RingGeom }

/-- `polygon_end`: back to the Normal nesting state. -/
def WkbWriter.polygon_end (w : WkbWriter) (_tagged : Bool) (_idx : Nat) : WkbWriter :=
  { w with geom_state := .Normal }

/-- `multipolygon_begin`: header and element count. -/
def WkbWriter.multipolygon_begin (w : WkbWriter) (size : Nat) (_idx : Nat) : WkbWriter :=
  let w := w.write_header .MultiPolygon
  w.put (put32 w.endian (size % 4294967296))

/-- `geometrycollection_begin`: header and element count. -/
def WkbWriter.geometrycollection_begin (w : WkbWriter) (size : Nat) (_idx : Nat) : WkbWriter :=
  let w := w.write_header .GeometryCollection
  w.put (put32 w.endian (size % 4294967296))

/-- `circularstring_begin`: header and element count. -/
def WkbWriter.circularstring_begin (w : WkbWriter) (size : Nat) (_idx : Nat) : WkbWriter :=
  let w := w.write_header .CircularString
  w.put (put32 w.endian (size % 4294967296))

/-- `compoundcurve_begin`: header and element count. -/
def WkbWriter.compoundcurve_begin (w : WkbWriter) (size : Nat) (_idx : Nat) : WkbWriter :=
  let w := w.write_header .CompoundCurve
  w.put (put32 w.endian (size % 4294967296))

/-- `curvepolygon_begin`: header and element count. -/
def WkbWriter.curvepolygon_begin (w : WkbWriter) (size : Nat) (_idx : Nat) : WkbWriter :=
  let w := w.write_header .CurvePolygon
  w.put (put32 w.endian (size % 4294967296))

/-- `multicurve_begin`: header and element count. -/
def WkbWriter.multicurve_begin (w : WkbWriter) (size : Nat) (_idx : Nat) : WkbWriter :=
  let w := w.write_header .MultiCurve
  w.put (put32 w.endian (size % 4294967296))

/-- `multisurface_begin`: header and element count. -/
def WkbWriter.multisurface_begin (w : WkbWriter) (size : Nat) (_idx : Nat) : WkbWriter :=
  let w := w.write_header .MultiSurface
  w.put (put32 w.endian (size % 4294967296))

/-- `triangle_begin`: header, element count, and enter the RingGeom
nesting state. -/
def WkbWriter.triangle_begin (w : WkbWriter) (_tagged : Bool) (size : Nat)
    (_idx : Nat) : WkbWriter :=
  let w := w.write_header .Triangle
  let w := w.put (put32 w.endian (size % 4294967296))
  { w with geom_state := .RingGeom }

/-- `triangle_end`: back to the Normal nesting state. -/
def WkbWriter.triangle_end (w : WkbWriter) (_tagged : Bool) (_idx : Nat) : WkbWriter :=
  { w with geom_state := .Normal }

/-- `polyhedralsurface_begin`: header and element count. -/
def WkbWriter.polyhedralsurface_begin (w : WkbWriter) (size : Nat) (_idx : Nat) : WkbWriter :=
  let w := w.write_header .PolyhedralSurface
  w.put (put32 w.endian (size % 4294967296))

/-- `tin_begin`: header and element count. -/
def WkbWriter.tin_begin (w : WkbWriter) (size : Nat) (_idx : Nat) : WkbWriter :=
  let w := w.write_header .Tin
  w.put (put32 w.endian (size % 4294967296))

/-- One traversal callback of the `GeomProcessor` protocol, as invoked by an
external geometry source.  `f64` arguments are carried as IEEE-754 bit
patterns. -/
inductive Event where
  | xy (x y : Nat) (idx : Nat)
  | coordinate (x y : Nat) (z m t : Option Nat) (tm : Option Nat) (idx : Nat)
  | point_begin (idx : Nat)
  | point_end (idx : Nat)
  | multipoint_begin (size idx : Nat)
  | multipoint_end (idx : Nat)
  | linestring_begin (tagged : Bool) (size idx : Nat)
  | linestring_end (tagged : Bool) (idx : Nat)
  | multilinestring_begin (size idx : Nat)
  | multilinestring_end (idx : Nat)
  | polygon_begin (tagged : Bool) (size idx : Nat)
  | polygon_end (tagged : Bool) (idx : Nat)
  | multipolygon_begin (size idx : Nat)
  | multipolygon_end (idx : Nat)
  | geometrycollection_begin (size idx : Nat)
  | geometrycollection_end (idx : Nat)
  | circularstring_begin (size idx : Nat)
  | circularstring_end (idx : Nat)
  | compoundcurve_begin (size idx : Nat)
  | compoundcurve_end (idx : Nat)
  | curvepolygon_begin (size idx : Nat)
  | curvepolygon_end (idx : Nat)
  | multicurve_begin (size idx : Nat)
  | multicurve_end (idx : Nat)
  | multisurface_begin (size idx : Nat)
  | multisurface_end (idx : Nat)
  | triangle_begin (tagged : Bool) (size idx : Nat)
  | triangle_end (tagged : Bool) (idx : Nat)
  | polyhedralsurface_begin (size idx : Nat)
  | polyhedralsurface_end (idx : Nat)
  | tin_begin (size idx : Nat)
  | tin_end (idx : Nat)
  deriving DecidableEq, Repr

/-- Dispatch one callback to the writer.  The `end` callbacks the source
does not override (everything except multipoint, polygon and triangle)
use the no-op `GeomProcessor` trait defaults. -/
def processEvent (w : WkbWriter) : Event → WkbWriter
  | .xy x y i => w.xy x y i
  | .coordinate x y z m t tm i => w.coordinate x y z m t tm i
  | .point_begin i => w.point_begin i
  | .point_end _ => w
  | .multipoint_begin s i => w.multipoint_begin s i
  | .multipoint_end i => w.multipoint_end i
  | .linestring_begin tg s i => w.linestring_begin tg s i
  | .linestring_end _ _ => w
  | .multilinestring_begin s i => w.multilinestring_begin s i
  | .multilinestring_end _ => w
  | .polygon_begin tg s i => w.polygon_begin tg s i
  | .polygon_end tg i => w.polygon_end tg i
  | .multipolygon_begin s i => w.multipolygon_begin s i
  | .multipolygon_end _ => w
  | .geometrycollection_begin s i => w.geometrycollection_begin s i
  | .geometrycollection_end _ => w
  | .circularstring_begin s i => w.circularstring_begin s i
  | .circularstring_end _ => w
  | .compoundcurve_begin s i => w.compoundcurve_begin s i
  | .compoundcurve_end _ => w
  | .curvepolygon_begin s i => w.curvepolygon_begin s i
  | .curvepolygon_end _ => w
  | .multicurve_begin s i => w.multicurve_begin s i
  | .multicurve_end _ => w
  | .multisurface_begin s i => w.multisurface_begin s i
  | .multisurface_end _ => w
  | .triangle_begin tg s i => w.triangle_begin tg s i
  | .triangle_end tg i => w.triangle_end tg i
  | .polyhedralsurface_begin s i => w.polyhedralsurface_begin s i
  | .polyhedralsurface_end _ => w
  | .tin_begin s i => w.tin_begin s i
  | .tin_end _ => w

/-- Run the writer over a whole callback stream. -/
def processEvents (w : WkbWriter) (es : List Event) : WkbWriter :=
  es.foldl processEvent w

/-- The 32-bit type field of an EWKB header, following the spec's words
(§4.2 / §6): the base code, OR 0x80000000 when Z is declared, OR 0x40000000
when M is declared, OR 0x20000000 when the SRID flag applies. -/
def headerTypeId (d : CoordDimensions) (sridFlag : Bool) (t : WKBGeometryType) : Nat :=
  ((t.code ||| (if d.z then 0x80000000 else 0)) ||| (if d.m then 0x40000000 else 0)) |||
    (if sridFlag then 0x20000000 else 0)

/-- The on-wire EWKB header, following the spec's words (§6): byte-order
tag, type field, and — when `so` carries an SRID — the 4-byte SRID value. -/
def hdrBytes (e : Endian) (d : CoordDimensions) (so : Option Int) (t : WKBGeometryType) :
    List Nat :=
  byteOrderTag e ::
    (put32 e (headerTypeId d so.isSome t) ++
      (match so with
       | some s => put32 e (u32ofI32 s)
       | none => []))

/-- Abbreviation for the SRID argument a header written from state `w`
actually carries. -/
def WkbWriter.sridArg (w : WkbWriter) : Option Int :=
  if w.first_header then w.srid else none

/-- Coordinate bytes: x, y, then z and m when supplied. -/
def coordValueBytes (e : Endian) (x y : Nat) (z m : Option Nat) : List Nat :=
  put64 e x ++ put64 e y ++
    (match z with
     | some z => put64 e z
     | none => []) ++
    (match m with
     | some m => put64 e m
     | none => [])

/-- A coordinate: x and y values with optional z and m, each carried as an
IEEE-754 f64 bit pattern. -/
structure Coord where
  x : Nat
  y : Nat
  z : Option Nat
  m : Option Nat
  deriving DecidableEq, Repr

/-- Modelled from the spec: the abstract geometries of the traversal
protocol (§3, §4.3's call grammar).  Rings of a polygon or triangle are
untagged coordinate sequences; elements of the Multi*/collection/curve
composites are tagged sub-geometries. -/
inductive Geometry where
  | point (c : Coord)
  | lineString (cs : List Coord)
  | circularString (cs : List Coord)
  | polygon (rings : List (List Coord))
  | triangle (rings : List (List Coord))
  | multiPoint (cs : List Coord)
  | multiLineString (ls : List (List Coord))
  | multiPolygon (ps : List (List (List Coord)))
  | polyhedralSurface (ps : List (List (List Coord)))
  | tin (ts : List (List (List Coord)))
  | geometryCollection (gs : List Geometry)
  | compoundCurve (gs : List Geometry)
  | curvePolygon (gs : List Geometry)
  | multiCurve (gs : List Geometry)
  | multiSurface (gs : List Geometry)

/-- Coordinate callbacks for a coordinate sequence, starting at index `i`. -/
def coordSeq : List Coord → Nat → List Event
  | [], _ => []
  | c :: cs, i => .coordinate c.x c.y c.z c.m none none i :: coordSeq cs (i + 1)

/-- Untagged-linestring callbacks (rings, Multi* elements) for a sequence
of coordinate lists. -/
def lineSeq : List (List Coord) → Nat → List Event
  | [], _ => []
  | r :: rs, i =>
      (.linestring_begin false r.length i :: (coordSeq r 0 ++ [.linestring_end false i])) ++
        lineSeq rs (i + 1)

/-- Polygon callbacks for a sequence of polygons (each a list of rings). -/
def polySeq : List (List (List Coord)) → Nat → List Event
  | [], _ => []
  | p :: ps, i =>
      (.polygon_begin false p.length i :: (lineSeq p 0 ++ [.polygon_end false i])) ++
        polySeq ps (i + 1)

/-- Triangle callbacks for a sequence of triangles (each a list of rings). -/
def triSeq : List (List (List Coord)) → Nat → List Event
  | [], _ => []
  | p :: ps, i =>
      (.triangle_begin false p.length i :: (lineSeq p 0 ++ [.triangle_end false i])) ++
        triSeq ps (i + 1)

mutual
/-- Modelled from the spec: the callback stream a spec-compliant geometry
source (e.g. the EWKB decoder used by the repository's round-trip tests)
emits when traversing `g` at index `i` — begin with the element count,
the elements, end (spec §4.1, §6). -/
def geomEvents : Geometry → Nat → List Event
  | .point c, i =>
      [.point_begin i, .coordinate c.x c.y c.z c.m none none 0, .point_end i]
  | .lineString cs, i =>
      .linestring_begin true cs.length i :: (coordSeq cs 0 ++ [.linestring_end true i])
  | .circularString cs, i =>
      .circularstring_begin cs.length i :: (coordSeq cs 0 ++ [.circularstring_end i])
  | .polygon rs, i =>
      .polygon_begin true rs.length i :: (lineSeq rs 0 ++ [.polygon_end true i])
  | .triangle rs, i =>
      .triangle_begin true rs.length i :: (lineSeq rs 0 ++ [.triangle_end true i])
  | .multiPoint cs, i =>
      .multipoint_begin cs.length i :: (coordSeq cs 0 ++ [.multipoint_end i])
  | .multiLineString ls, i =>
      .multilinestring_begin ls.length i :: (lineSeq ls 0 ++ [.multilinestring_end i])
  | .multiPolygon ps, i =>
      .multipolygon_begin ps.length i :: (polySeq ps 0 ++ [.multipolygon_end i])
  | .polyhedralSurface ps, i =>
      .polyhedralsurface_begin ps.length i :: (polySeq ps 0 ++ [.polyhedralsurface_end i])
  | .tin ts, i =>
      .tin_begin ts.length i :: (triSeq ts 0 ++ [.tin_end i])
  | .geometryCollection gs, i =>
      .geometrycollection_begin gs.length i :: (geomSeq gs 0 ++ [.geometrycollection_end i])
  | .compoundCurve gs, i =>
      .compoundcurve_begin gs.length i :: (geomSeq gs 0 ++ [.compoundcurve_end i])
  | .curvePolygon gs, i =>
      .curvepolygon_begin gs.length i :: (geomSeq gs 0 ++ [.curvepolygon_end i])
  | .multiCurve gs, i =>
      .multicurve_begin gs.length i :: (geomSeq gs 0 ++ [.multicurve_end i])
  | .multiSurface gs, i =>
      .multisurface_begin gs.length i :: (geomSeq gs 0 ++ [.multisurface_end i])
/-- Callback stream of a sequence of tagged sub-geometries. -/
def geomSeq : List Geometry → Nat → List Event
  | [], _ => []
  | g :: tl, i => geomEvents g i ++ geomSeq tl (i + 1)
end

/-- Spec-side coordinate bytes: X, Y, then Z and M when present (§6). -/
def coordBytes (e : Endian) (c : Coord) : List Nat :=
  coordValueBytes e c.x c.y c.z c.m

/-- Spec-side untagged linestring body: element count, then coordinates. -/
def lineBodyBytes (e : Endian) (cs : List Coord) : List Nat :=
  put32 e cs.length ++ (cs.map (coordBytes e)).flatten

/-- Spec-side polygon body: ring count, then untagged ring bodies. -/
def polyBodyBytes (e : Endian) (rs : List (List Coord)) : List Nat :=
  put32 e rs.length ++ (rs.map (lineBodyBytes e)).flatten

mutual
/-- Modelled from the spec: the EWKB bytes a spec-compliant encoder
produces for geometry `g` (§6's field-exact wire format): a header whose
SRID part is `so`, an element count for every composite kind except Point
and untagged rings, untagged ring bodies inside Polygon/Triangle, tagged
Point elements inside MultiPoint, and tagged sub-geometries (with
SRID-free headers) inside all other composites. -/
def specEnc (e : Endian) (d : CoordDimensions) : Option Int → Geometry → List Nat
  | so, .point c => hdrBytes e d so .Point ++ coordBytes e c
  | so, .lineString cs => hdrBytes e d so .LineString ++ lineBodyBytes e cs
  | so, .circularString cs => hdrBytes e d so .CircularString ++ lineBodyBytes e cs
  | so, .polygon rs => hdrBytes e d so .Polygon ++ polyBodyBytes e rs
  | so, .triangle rs => hdrBytes e d so .Triangle ++ polyBodyBytes e rs
  | so, .multiPoint cs =>
      hdrBytes e d so .MultiPoint ++ put32 e cs.length ++
        (cs.map (fun c => hdrBytes e d none .Point ++ coordBytes e c)).flatten
  | so, .multiLineString ls =>
      hdrBytes e d so .MultiLineString ++ put32 e ls.length ++
        (ls.map (fun cs => hdrBytes e d none .LineString ++ lineBodyBytes e cs)).flatten
  | so, .multiPolygon ps =>
      hdrBytes e d so .MultiPolygon ++ put32 e ps.length ++
        (ps.map (fun rs => hdrBytes e d none .Polygon ++ polyBodyBytes e rs)).flatten
  | so, .polyhedralSurface ps =>
      hdrBytes e d so .PolyhedralSurface ++ put32 e ps.length ++
        (ps.map (fun rs => hdrBytes e d none .Polygon ++ polyBodyBytes e rs)).flatten
  | so, .tin ts =>
      hdrBytes e d so .Tin ++ put32 e ts.length ++
        (ts.map (fun rs => hdrBytes e d none .Triangle ++ polyBodyBytes e rs)).flatten
  | so, .geometryCollection gs =>
      hdrBytes e d so .GeometryCollection ++ put32 e gs.length ++ specSeq e d gs
  | so, .compoundCurve gs =>
      hdrBytes e d so .CompoundCurve ++ put32 e gs.length ++ specSeq e d gs
  | so, .curvePolygon gs =>
      hdrBytes e d so .CurvePolygon ++ put32 e gs.length ++ specSeq e d gs
  | so, .multiCurve gs =>
      hdrBytes e d so .MultiCurve ++ put32 e gs.length ++ specSeq e d gs
  | so, .multiSurface gs =>
      hdrBytes e d so .MultiSurface ++ put32 e gs.length ++ specSeq e d gs
/-- Spec-side bytes of a sequence of tagged sub-geometries: each with a
full, SRID-free header. -/
def specSeq (e : Endian) (d : CoordDimensions) : List Geometry → List Nat
  | [] => []
  | g :: tl => specEnc e d none g ++ specSeq e d tl
end

/-- The claim-side nesting transition table: RingGeom on polygon/triangle
begin, Normal on their ends and on multipoint end, MultiPointGeom on
multipoint begin, unchanged otherwise. -/
def stateTransition (s : GeomState) (e : Event) : GeomState :=
  match e with
  | .polygon_begin _ _ _ => .RingGeom
  | .triangle_begin _ _ _ => .RingGeom
  | .polygon_end _ _ => .Normal
  | .triangle_end _ _ => .Normal
  | .multipoint_begin _ _ => .MultiPointGeom
  | .multipoint_end _ => .Normal
  | _ => s

/-- A fallible byte sink modelling the `W: Write` parameter: writing a
byte fails with the fixed I/O error value `errCode` as soon as the number
of bytes already written reaches `failAt` (a sink with `failAt = none`
never fails). -/
structure Sink where
  bytes : List Nat
  failAt : Option Nat
  errCode : Nat
  deriving DecidableEq, Repr

/-- Write one byte to the sink, or fail with the sink's own error. -/
def Sink.putByte (s : Sink) (b : Nat) : Except Nat Sink :=
  match s.failAt with
  | some n =>
      if n ≤ s.bytes.length then .error s.errCode
      else .ok { s with bytes := s.bytes ++ [b] }
  | none => .ok { s with bytes := s.bytes ++ [b] }

/-- Write a byte sequence (one `iowrite`), propagating the first failure. -/
def Sink.puts (s : Sink) (bs : List Nat) : Except Nat Sink :=
  match bs with
  | [] => .ok s
  | b :: rest =>
      match s.putByte b with
      | .ok s2 => s2.puts rest
      | .error e => .error e

/-- The writer over a fallible sink: the faithful embedding of the
source's `Result<()>` plumbing, where every `?` propagates the sink's
error. -/
structure WkbWriterF where
  dims : CoordDimensions
  srid : Option Int
  endian : Endian
  first_header : Bool
  geom_state : GeomState
  sink : Sink
  deriving DecidableEq, Repr

/-- Append bytes through the fallible sink. -/
def WkbWriterF.put (w : WkbWriterF) (bs : List Nat) : Except Nat WkbWriterF :=
  match w.sink.puts bs with
  | .ok s => .ok { w with sink := s }
  | .error e => .error e

/-- Fallible `write_ewkb_header`. -/
def WkbWriterF.write_ewkb_header (w : WkbWriterF) (wkb_type : WKBGeometryType) :
    Except Nat WkbWriterF := do
  let w ← w.put [byteOrderTag w.endian]
  let type_id := wkb_type.code
  let type_id := if w.dims.z then type_id ||| 0x80000000 else type_id
  let type_id := if w.dims.m then type_id ||| 0x40000000 else type_id
  let type_id := if w.srid.isSome && w.first_header then type_id ||| 0x20000000 else type_id
  let w ← w.put (put32 w.endian type_id)
  if w.first_header then
    let w ←
      match w.srid with
      | some srid => w.put (put32 w.endian (u32ofI32 srid))
      | none => pure w
    pure { w with first_header := false }
  else
    pure w

/-- Fallible `write_header` (dialect dispatch). -/
def WkbWriterF.write_header (w : WkbWriterF) (wkb_type : WKBGeometryType) :
    Except Nat WkbWriterF :=
  w.write_ewkb_header wkb_type

/-- Fallible `xy`. -/
def WkbWriterF.xy (w : WkbWriterF) (x y : Nat) (_idx : Nat) : Except Nat WkbWriterF := do
  let w ← if w.geom_state = .MultiPointGeom then w.write_header .Point else pure w
  let w ← w.put (put64 w.endian x)
  w.put (put64 w.endian y)

/-- Fallible `coordinate`. -/
def WkbWriterF.coordinate (w : WkbWriterF) (x y : Nat) (z m : Option Nat)
    (_t : Option Nat) (_tm : Option Nat) (_idx : Nat) : Except Nat WkbWriterF := do
  let w ← if w.geom_state = .MultiPointGeom then w.write_header .Point else pure w
  let w ← w.put (put64 w.endian x)
  let w ← w.put (put64 w.endian y)
  let w ←
    match z with
    | some z => w.put (put64 w.endian z)
    | none => pure w
  match m with
  | some m => w.put (put64 w.endian m)
  | none => pure w

/-- Fallible `point_begin`. -/
def WkbWriterF.point_begin (w : WkbWriterF) (_idx : Nat) : Except Nat WkbWriterF :=
  w.write_header .Point

/-- Fallible `multipoint_begin`. -/
def WkbWriterF.multipoint_begin (w : WkbWriterF) (size : Nat) (_idx : Nat) :
    Except Nat WkbWriterF := do
  let w ← w.write_header .MultiPoint
  let w ← w.put (put32 w.endian (size % 4294967296))
  pure { w with geom_state := .MultiPointGeom }

/-- Fallible `multipoint_end`. -/
def WkbWriterF.multipoint_end (w : WkbWriterF) (_idx : Nat) : Except Nat WkbWriterF :=
  pure { w with geom_state := .Normal }

/-- Fallible `linestring_begin`. -/
def WkbWriterF.linestring_begin (w : WkbWriterF) (_tagged : Bool) (size : Nat)
    (_idx : Nat) : Except Nat WkbWriterF := do
  let w ← if w.geom_state ≠ .RingGeom then w.write_header .LineString else pure w
  w.put (put32 w.endian (size % 4294967296))

/-- Fallible `multilinestring_begin`. -/
def WkbWriterF.multilinestring_begin (w : WkbWriterF) (size : Nat) (_idx : Nat) :
    Except Nat WkbWriterF := do
  let w ← w.write_header .MultiLineString
  w.put (put32 w.endian (size % 4294967296))

/-- Fallible `polygon_begin`. -/
def WkbWriterF.polygon_begin (w : WkbWriterF) (_tagged : Bool) (size : Nat)
    (_idx : Nat) : Except Nat WkbWriterF := do
  let w ← w.write_header .Polygon
  let w ← w.put (put32 w.endian (size % 4294967296))
  pure { w with geom_state := .RingGeom }

/-- Fallible `polygon_end`. -/
def WkbWriterF.polygon_end (w : WkbWriterF) (_tagged : Bool) (_idx : Nat) :
    Except Nat WkbWriterF :=
  pure { w with geom_state := .Normal }

/-- Fallible `multipolygon_begin`. -/
def WkbWriterF.multipolygon_begin (w : WkbWriterF) (size : Nat) (_idx : Nat) :
    Except Nat WkbWriterF := do
  let w ← w.write_header .MultiPolygon
  w.put (put32 w.endian (size % 4294967296))

/-- Fallible `geometrycollection_begin`. -/
def WkbWriterF.geometrycollection_begin (w : WkbWriterF) (size : Nat) (_idx : Nat) :
    Except Nat WkbWriterF := do
  let w ← w.write_header .GeometryCollection
  w.put (put32 w.endian (size % 4294967296))

/-- Fallible `circularstring_begin`. -/
def WkbWriterF.circularstring_begin (w : WkbWriterF) (size : Nat) (_idx : Nat) :
    Except Nat WkbWriterF := do
  let w ← w.write_header .CircularString
  w.put (put32 w.endian (size % 4294967296))

/-- Fallible `compoundcurve_begin`. -/
def WkbWriterF.compoundcurve_begin (w : WkbWriterF) (size : Nat) (_idx : Nat) :
    Except Nat WkbWriterF := do
  let w ← w.write_header .CompoundCurve
  w.put (put32 w.endian (size % 4294967296))

/-- Fallible `curvepolygon_begin`. -/
def WkbWriterF.curvepolygon_begin (w : WkbWriterF) (size : Nat) (_idx : Nat) :
    Except Nat WkbWriterF := do
  let w ← w.write_header .CurvePolygon
  w.put (put32 w.endian (size % 4294967296))

/-- Fallible `multicurve_begin`. -/
def WkbWriterF.multicurve_begin (w : WkbWriterF) (size : Nat) (_idx : Nat) :
    Except Nat WkbWriterF := do
  let w ← w.write_header .MultiCurve
  w.put (put32 w.endian (size % 4294967296))

/-- Fallible `multisurface_begin`. -/
def WkbWriterF.multisurface_begin (w : WkbWriterF) (size : Nat) (_idx : Nat) :
    Except Nat WkbWriterF := do
  let w ← w.write_header .MultiSurface
  w.put (put32 w.endian (size % 4294967296))

/-- Fallible `triangle_begin`. -/
def WkbWriterF.triangle_begin (w : WkbWriterF) (_tagged : Bool) (size : Nat)
    (_idx : Nat) : Except Nat WkbWriterF := do
  let w ← w.write_header .Triangle
  let w ← w.put (put32 w.endian (size % 4294967296))
  pure { w with geom_state := .RingGeom }

/-- Fallible `triangle_end`. -/
def WkbWriterF.triangle_end (w : WkbWriterF) (_tagged : Bool) (_idx : Nat) :
    Except Nat WkbWriterF :=
  pure { w with geom_state := .Normal }

/-- Fallible `polyhedralsurface_begin`. -/
def WkbWriterF.polyhedralsurface_begin (w : WkbWriterF) (size : Nat) (_idx : Nat) :
    Except Nat WkbWriterF := do
  let w ← w.write_header .PolyhedralSurface
  w.put (put32 w.endian (size % 4294967296))

/-- Fallible `tin_begin`. -/
def WkbWriterF.tin_begin (w : WkbWriterF) (size : Nat) (_idx : Nat) :
    Except Nat WkbWriterF := do
  let w ← w.write_header .Tin
  w.put (put32 w.endian (size % 4294967296))

/-- Dispatch one callback to the fallible writer (no-op trait defaults for
the non-overridden `end` callbacks). -/
def processEventF (w : WkbWriterF) : Event → Except Nat WkbWriterF
  | .xy x y i => w.xy x y i
  | .coordinate x y z m t tm i => w.coordinate x y z m t tm i
  | .point_begin i => w.point_begin i
  | .point_end _ => pure w
  | .multipoint_begin s i => w.multipoint_begin s i
  | .multipoint_end i => w.multipoint_end i
  | .linestring_begin tg s i => w.linestring_begin tg s i
  | .linestring_end _ _ => pure w
  | .multilinestring_begin s i => w.multilinestring_begin s i
  | .multilinestring_end _ => pure w
  | .polygon_begin tg s i => w.polygon_begin tg s i
  | .polygon_end tg i => w.polygon_end tg i
  | .multipolygon_begin s i => w.multipolygon_begin s i
  | .multipolygon_end _ => pure w
  | .geometrycollection_begin s i => w.geometrycollection_begin s i
  | .geometrycollection_end _ => pure w
  | .circularstring_begin s i => w.circularstring_begin s i
  | .circularstring_end _ => pure w
  | .compoundcurve_begin s i => w.compoundcurve_begin s i
  | .compoundcurve_end _ => pure w
  | .curvepolygon_begin s i => w.curvepolygon_begin s i
  | .curvepolygon_end _ => pure w
  | .multicurve_begin s i => w.multicurve_begin s i
  | .multicurve_end _ => pure w
  | .multisurface_begin s i => w.multisurface_begin s i
  | .multisurface_end _ => pure w
  | .triangle_begin tg s i => w.triangle_begin tg s i
  | .triangle_end tg i => w.triangle_end tg i
  | .polyhedralsurface_begin s i => w.polyhedralsurface_begin s i
  | .polyhedralsurface_end _ => pure w
  | .tin_begin s i => w.tin_begin s i
  | .tin_end _ => pure w

/-- Forget the failure structure: the pure writer state this fallible
state corresponds to. -/
def WkbWriterF.toPure (w : WkbWriterF) : WkbWriter :=
  { dims := w.dims
    srid := w.srid
    endian := w.endian
    first_header := w.first_header
    geom_state := w.geom_state
    out := w.sink.bytes }

/-- Equip a pure writer state with a failure threshold and error value. -/
def pureToF (v : WkbWriter) (fa : Option Nat) (ec : Nat) : WkbWriterF :=
  { dims := v.dims
    srid := v.srid
    endian := v.endian
    first_header := v.first_header
    geom_state := v.geom_state
    sink := { bytes := v.out, failAt := fa, errCode := ec } }

/-- The successful outcome of a fallible step refining the pure step `P`:
the lifted result of `P`, with the sink's failure threshold and error
value carried along. -/
def modelsOk (P : WkbWriter → WkbWriter) (w : WkbWriterF) : Except Nat WkbWriterF :=
  .ok (pureToF (P w.toPure) w.sink.failAt w.sink.errCode)

/-- The outcome of a fallible step refining the pure step `P`: success
when the sink cannot fail, or when every byte written stays below the
threshold, or when nothing at all is written; otherwise the sink's own
error value. -/
def modelsRhs (P : WkbWriter → WkbWriter) (w : WkbWriterF) : Except Nat WkbWriterF :=
  match w.sink.failAt with
  | none => modelsOk P w
  | some n =>
      if (P w.toPure).out.length ≤ n ∨ (P w.toPure).out.length = w.sink.bytes.length
      then modelsOk P w
      else .error w.sink.errCode

/-- `F` refines the pure step `P`: `P` only appends output, and `F`
returns `modelsRhs P`. -/
def Models (F : WkbWriterF → Except Nat WkbWriterF) (P : WkbWriter → WkbWriter) : Prop :=
  (∀ v : WkbWriter, ∃ d : List Nat, (P v).out = v.out ++ d) ∧
  (∀ w : WkbWriterF, F w = modelsRhs P w)

theorem put32_mod (e : Endian) (n : Nat) : put32 e (n % 4294967296) = put32 e n := by
  cases e <;> simp only [put32, List.cons.injEq, and_true] <;> omega

theorem put32_length (e : Endian) (n : Nat) : (put32 e n).length = 4 := by
  cases e <;> rfl

theorem put64_length (e : Endian) (n : Nat) : (put64 e n).length = 8 := by
  cases e <;> rfl

theorem processEvents_append (w : WkbWriter) (a b : List Event) :
    processEvents w (a ++ b) = processEvents (processEvents w a) b := by
  simp [processEvents, List.foldl_append]

theorem processEvents_cons (w : WkbWriter) (e : Event) (es : List Event) :
    processEvents w (e :: es) = processEvents (processEvent w e) es := rfl

theorem processEvents_nil (w : WkbWriter) : processEvents w [] = w := rfl

/-- `write_ewkb_header` emits exactly the spec's header bytes — carrying the
SRID part only when the writer still is at its first header — and clears
`first_header` unconditionally. -/
theorem write_ewkb_header_run (w : WkbWriter) (t : WKBGeometryType) :
    w.write_ewkb_header t =
      { w with
          out := w.out ++ hdrBytes w.endian w.dims (if w.first_header then w.srid else none) t,
          first_header := false } := by
  cases hf : w.first_header <;> cases hs : w.srid <;>
    cases hz : w.dims.z <;> cases hm : w.dims.m <;>
      simp [WkbWriter.write_ewkb_header, hdrBytes, headerTypeId, WkbWriter.put,
        hf, hs, hz, hm]

theorem write_header_run (w : WkbWriter) (t : WKBGeometryType) :
    w.write_header t =
      { w with out := w.out ++ hdrBytes w.endian w.dims w.sridArg t,
               first_header := false } :=
  write_ewkb_header_run w t

theorem point_begin_run (w : WkbWriter) (i : Nat) :
    w.point_begin i =
      { w with out := w.out ++ hdrBytes w.endian w.dims w.sridArg .Point,
               first_header := false } :=
  write_ewkb_header_run w .Point

theorem multipoint_begin_run (w : WkbWriter) (s i : Nat) :
    w.multipoint_begin s i =
      { w with
          out := w.out ++ hdrBytes w.endian w.dims w.sridArg .MultiPoint ++ put32 w.endian s,
          first_header := false
          geom_state := .MultiPointGeom } := by
  simp [WkbWriter.multipoint_begin, WkbWriter.write_header, write_ewkb_header_run,
    WkbWriter.put, put32_mod, WkbWriter.sridArg]

theorem linestring_begin_run_normal (w : WkbWriter) (tg : Bool) (s i : Nat)
    (h : w.geom_state ≠ .RingGeom) :
    w.linestring_begin tg s i =
      { w with
          out := w.out ++ hdrBytes w.endian w.dims w.sridArg .LineString ++ put32 w.endian s,
          first_header := false } := by
  simp [WkbWriter.linestring_begin, WkbWriter.write_header, write_ewkb_header_run,
    WkbWriter.put, put32_mod, WkbWriter.sridArg, h]

theorem linestring_begin_run_ring (w : WkbWriter) (tg : Bool) (s i : Nat)
    (h : w.geom_state = .RingGeom) :
    w.linestring_begin tg s i = { w with out := w.out ++ put32 w.endian s } := by
  simp [WkbWriter.linestring_begin, WkbWriter.put, put32_mod, h]

theorem polygon_begin_run (w : WkbWriter) (tg : Bool) (s i : Nat) :
    w.polygon_begin tg s i =
      { w with
          out := w.out ++ hdrBytes w.endian w.dims w.sridArg .Polygon ++ put32 w.endian s,
          first_header := false
          geom_state := .RingGeom } := by
  simp [WkbWriter.polygon_begin, WkbWriter.write_header, write_ewkb_header_run,
    WkbWriter.put, put32_mod, WkbWriter.sridArg]

theorem triangle_begin_run (w : WkbWriter) (tg : Bool) (s i : Nat) :
    w.triangle_begin tg s i =
      { w with
          out := w.out ++ hdrBytes w.endian w.dims w.sridArg .Triangle ++ put32 w.endian s,
          first_header := false
          geom_state := .RingGeom } := by
  simp [WkbWriter.triangle_begin, WkbWriter.write_header, write_ewkb_header_run,
    WkbWriter.put, put32_mod, WkbWriter.sridArg]

theorem multilinestring_begin_run (w : WkbWriter) (s i : Nat) :
    w.multilinestring_begin s i =
      { w with
          out := w.out ++ hdrBytes w.endian w.dims w.sridArg .MultiLineString ++
            put32 w.endian s,
          first_header := false } := by
  simp [WkbWriter.multilinestring_begin, WkbWriter.write_header, write_ewkb_header_run,
    WkbWriter.put, put32_mod, WkbWriter.sridArg]

theorem multipolygon_begin_run (w : WkbWriter) (s i : Nat) :
    w.multipolygon_begin s i =
      { w with
          out := w.out ++ hdrBytes w.endian w.dims w.sridArg .MultiPolygon ++ put32 w.endian s,
          first_header := false } := by
  simp [WkbWriter.multipolygon_begin, WkbWriter.write_header, write_ewkb_header_run,
    WkbWriter.put, put32_mod, WkbWriter.sridArg]

theorem geometrycollection_begin_run (w : WkbWriter) (s i : Nat) :
    w.geometrycollection_begin s i =
      { w with
          out := w.out ++ hdrBytes w.endian w.dims w.sridArg .GeometryCollection ++
            put32 w.endian s,
          first_header := false } := by
  simp [WkbWriter.geometrycollection_begin, WkbWriter.write_header, write_ewkb_header_run,
    WkbWriter.put, put32_mod, WkbWriter.sridArg]

theorem circularstring_begin_run (w : WkbWriter) (s i : Nat) :
    w.circularstring_begin s i =
      { w with
          out := w.out ++ hdrBytes w.endian w.dims w.sridArg .CircularString ++
            put32 w.endian s,
          first_header := false } := by
  simp [WkbWriter.circularstring_begin, WkbWriter.write_header, write_ewkb_header_run,
    WkbWriter.put, put32_mod, WkbWriter.sridArg]

theorem compoundcurve_begin_run (w : WkbWriter) (s i : Nat) :
    w.compoundcurve_begin s i =
      { w with
          out := w.out ++ hdrBytes w.endian w.dims w.sridArg .CompoundCurve ++
            put32 w.endian s,
          first_header := false } := by
  simp [WkbWriter.compoundcurve_begin, WkbWriter.write_header, write_ewkb_header_run,
    WkbWriter.put, put32_mod, WkbWriter.sridArg]

theorem curvepolygon_begin_run (w : WkbWriter) (s i : Nat) :
    w.curvepolygon_begin s i =
      { w with
          out := w.out ++ hdrBytes w.endian w.dims w.sridArg .CurvePolygon ++ put32 w.endian s,
          first_header := false } := by
  simp [WkbWriter.curvepolygon_begin, WkbWriter.write_header, write_ewkb_header_run,
    WkbWriter.put, put32_mod, WkbWriter.sridArg]

theorem multicurve_begin_run (w : WkbWriter) (s i : Nat) :
    w.multicurve_begin s i =
      { w with
          out := w.out ++ hdrBytes w.endian w.dims w.sridArg .MultiCurve ++ put32 w.endian s,
          first_header := false } := by
  simp [WkbWriter.multicurve_begin, WkbWriter.write_header, write_ewkb_header_run,
    WkbWriter.put, put32_mod, WkbWriter.sridArg]

theorem multisurface_begin_run (w : WkbWriter) (s i : Nat) :
    w.multisurface_begin s i =
      { w with
          out := w.out ++ hdrBytes w.endian w.dims w.sridArg .MultiSurface ++ put32 w.endian s,
          first_header := false } := by
  simp [WkbWriter.multisurface_begin, WkbWriter.write_header, write_ewkb_header_run,
    WkbWriter.put, put32_mod, WkbWriter.sridArg]

theorem polyhedralsurface_begin_run (w : WkbWriter) (s i : Nat) :
    w.polyhedralsurface_begin s i =
      { w with
          out := w.out ++ hdrBytes w.endian w.dims w.sridArg .PolyhedralSurface ++
            put32 w.endian s,
          first_header := false } := by
  simp [WkbWriter.polyhedralsurface_begin, WkbWriter.write_header, write_ewkb_header_run,
    WkbWriter.put, put32_mod, WkbWriter.sridArg]

theorem tin_begin_run (w : WkbWriter) (s i : Nat) :
    w.tin_begin s i =
      { w with
          out := w.out ++ hdrBytes w.endian w.dims w.sridArg .Tin ++ put32 w.endian s,
          first_header := false } := by
  simp [WkbWriter.tin_begin, WkbWriter.write_header, write_ewkb_header_run,
    WkbWriter.put, put32_mod, WkbWriter.sridArg]

theorem coordinate_run_plain (w : WkbWriter) (x y : Nat) (z m t : Option Nat)
    (tm : Option Nat) (i : Nat) (h : w.geom_state ≠ .MultiPointGeom) :
    w.coordinate x y z m t tm i =
      { w with out := w.out ++ coordValueBytes w.endian x y z m } := by
  cases z <;> cases m <;>
    simp [WkbWriter.coordinate, WkbWriter.put, coordValueBytes, h]

theorem coordinate_run_multipoint (w : WkbWriter) (x y : Nat) (z m t : Option Nat)
    (tm : Option Nat) (i : Nat) (h : w.geom_state = .MultiPointGeom) :
    w.coordinate x y z m t tm i =
      { w with
          out := w.out ++ hdrBytes w.endian w.dims w.sridArg .Point ++
            coordValueBytes w.endian x y z m,
          first_header := false } := by
  cases z <;> cases m <;>
    simp [WkbWriter.coordinate, WkbWriter.write_header, write_ewkb_header_run,
      WkbWriter.put, coordValueBytes, WkbWriter.sridArg, h]

theorem xy_run_plain (w : WkbWriter) (x y : Nat) (i : Nat)
    (h : w.geom_state ≠ .MultiPointGeom) :
    w.xy x y i = { w with out := w.out ++ put64 w.endian x ++ put64 w.endian y } := by
  simp [WkbWriter.xy, WkbWriter.put, h]

theorem xy_run_multipoint (w : WkbWriter) (x y : Nat) (i : Nat)
    (h : w.geom_state = .MultiPointGeom) :
    w.xy x y i =
      { w with
          out := w.out ++ hdrBytes w.endian w.dims w.sridArg .Point ++
            put64 w.endian x ++ put64 w.endian y,
          first_header := false } := by
  simp [WkbWriter.xy, WkbWriter.write_header, write_ewkb_header_run, WkbWriter.put,
    WkbWriter.sridArg, h]

theorem update_out_out (w : WkbWriter) (a b : List Nat) :
    ({ { w with out := a } with out := b } : WkbWriter) = { w with out := b } := rfl

theorem update_fh_eta (w : WkbWriter) (o : List Nat) (hf : w.first_header = false) :
    ({ w with out := o, first_header := false } : WkbWriter) = { w with out := o } := by
  cases w
  simp_all

theorem update_state_eta (w : WkbWriter) (o : List Nat) (b : Bool)
    (hs : w.geom_state = .Normal) :
    ({ w with out := o, first_header := b, geom_state := .Normal } : WkbWriter) =
      { w with out := o, first_header := b } := by
  cases w
  simp_all

/-- Coordinate callbacks outside a multipoint append exactly the spec's
coordinate bytes and change nothing else. -/
theorem coordSeq_run (cs : List Coord) (i : Nat) (w : WkbWriter)
    (h : w.geom_state ≠ .MultiPointGeom) :
    processEvents w (coordSeq cs i) =
      { w with out := w.out ++ (cs.map (coordBytes w.endian)).flatten } := by
  induction cs generalizing i w with
  | nil => simp [coordSeq, processEvents_nil]
  | cons c cs ih =>
    simp only [coordSeq, processEvents_cons, processEvent]
    rw [coordinate_run_plain w c.x c.y c.z c.m none none i h]
    simp [ih, h, coordBytes]

/-- Coordinate callbacks inside a multipoint (first header already
written) each append a full SRID-free Point header and the coordinate
bytes. -/
theorem coordSeq_run_multipoint (cs : List Coord) (i : Nat) (w : WkbWriter)
    (h : w.geom_state = .MultiPointGeom) (hf : w.first_header = false) :
    processEvents w (coordSeq cs i) =
      { w with
          out := w.out ++
            (cs.map (fun c => hdrBytes w.endian w.dims none .Point ++
              coordBytes w.endian c)).flatten } := by
  induction cs generalizing i w with
  | nil => simp [coordSeq, processEvents_nil]
  | cons c cs ih =>
    simp only [coordSeq, processEvents_cons, processEvent]
    rw [coordinate_run_multipoint w c.x c.y c.z c.m none none i h]
    simp [ih, h, hf, WkbWriter.sridArg, coordBytes]

/-- Inside the RingGeom state, each untagged linestring (ring) appends
only its count and coordinates — no header. -/
theorem lineSeq_run_ring (rs : List (List Coord)) (i : Nat) (w : WkbWriter)
    (h : w.geom_state = .RingGeom) :
    processEvents w (lineSeq rs i) =
      { w with out := w.out ++ (rs.map (lineBodyBytes w.endian)).flatten } := by
  induction rs generalizing i w with
  | nil => simp [lineSeq, processEvents_nil]
  | cons r rs ih =>
    simp only [lineSeq, processEvents_append, processEvents_cons, processEvent]
    rw [linestring_begin_run_ring w false r.length i h]
    simp [ih, coordSeq_run, h, processEvents_cons, processEvents_nil, processEvent,
      lineBodyBytes]

/-- In the Normal state with the first header already written, each
element of a linestring sequence appends a full SRID-free LineString
header and its body. -/
theorem lineSeq_run_tagged (ls : List (List Coord)) (i : Nat) (w : WkbWriter)
    (hs : w.geom_state = .Normal) (hf : w.first_header = false) :
    processEvents w (lineSeq ls i) =
      { w with
          out := w.out ++
            (ls.map (fun cs => hdrBytes w.endian w.dims none .LineString ++
              lineBodyBytes w.endian cs)).flatten } := by
  induction ls generalizing i w with
  | nil => simp [lineSeq, processEvents_nil]
  | cons r rs ih =>
    simp only [lineSeq, processEvents_append, processEvents_cons, processEvent]
    rw [linestring_begin_run_normal w false r.length i (by simp [hs])]
    simp [ih, coordSeq_run, hs, hf, WkbWriter.sridArg, processEvents_cons,
      processEvents_nil, processEvent, lineBodyBytes]

/-- In the Normal state with the first header already written, each
element of a polygon sequence appends a full SRID-free Polygon header and
its body, and returns to the Normal state. -/
theorem polySeq_run (ps : List (List (List Coord))) (i : Nat) (w : WkbWriter)
    (hs : w.geom_state = .Normal) (hf : w.first_header = false) :
    processEvents w (polySeq ps i) =
      { w with
          out := w.out ++
            (ps.map (fun rs => hdrBytes w.endian w.dims none .Polygon ++
              polyBodyBytes w.endian rs)).flatten } := by
  induction ps generalizing i w with
  | nil => simp [polySeq, processEvents_nil]
  | cons p ps ih =>
    simp only [polySeq, processEvents_append, processEvents_cons, processEvent]
    rw [polygon_begin_run w false p.length i]
    simp [ih, lineSeq_run_ring, hs, hf, WkbWriter.sridArg, processEvents_cons,
      processEvents_nil, processEvent, WkbWriter.polygon_end, polyBodyBytes]

/-- In the Normal state with the first header already written, each
element of a triangle sequence appends a full SRID-free Triangle header
and its body. -/
theorem triSeq_run (ts : List (List (List Coord))) (i : Nat) (w : WkbWriter)
    (hs : w.geom_state = .Normal) (hf : w.first_header = false) :
    processEvents w (triSeq ts i) =
      { w with
          out := w.out ++
            (ts.map (fun rs => hdrBytes w.endian w.dims none .Triangle ++
              polyBodyBytes w.endian rs)).flatten } := by
  induction ts generalizing i w with
  | nil => simp [triSeq, processEvents_nil]
  | cons p ps ih =>
    simp only [triSeq, processEvents_append, processEvents_cons, processEvent]
    rw [triangle_begin_run w false p.length i]
    simp [ih, lineSeq_run_ring, hs, hf, WkbWriter.sridArg, processEvents_cons,
      processEvents_nil, processEvent, WkbWriter.triangle_end, polyBodyBytes]

/-- A sequence of tagged sub-geometries, each correctly encoded by
induction hypothesis, appends exactly the spec's sequence bytes. -/
theorem geomSeq_run_aux : ∀ (gs : List Geometry),
    (∀ g ∈ gs, ∀ (w2 : WkbWriter) (i2 : Nat), w2.geom_state = .Normal →
      processEvents w2 (geomEvents g i2) =
        { w2 with out := w2.out ++ specEnc w2.endian w2.dims w2.sridArg g,
                  first_header := false }) →
    ∀ (i : Nat) (w : WkbWriter), w.geom_state = .Normal → w.first_header = false →
    processEvents w (geomSeq gs i) =
      { w with out := w.out ++ specSeq w.endian w.dims gs }
  | [], _, i, w, hs, hf => by simp [geomSeq, processEvents_nil, specSeq]
  | g :: tl, IH, i, w, hs, hf => by
      simp only [geomSeq, processEvents_append]
      rw [IH g (by simp) w i hs]
      have h2 := geomSeq_run_aux tl (fun g2 hg2 => IH g2 (by simp [hg2]))
      simp [h2, hs, hf, WkbWriter.sridArg, specSeq]

/-- Main refinement: from any Normal-state writer, the callback stream of
`g` appends exactly the spec's EWKB encoding of `g` — with the SRID part
present exactly when the writer was still at its first header — and
leaves the writer back in the Normal state. -/
theorem geomEvents_run : ∀ (g : Geometry) (w : WkbWriter) (i : Nat),
    w.geom_state = .Normal →
    processEvents w (geomEvents g i) =
      { w with out := w.out ++ specEnc w.endian w.dims w.sridArg g,
               first_header := false }
  | .point c, w, i, hs => by
      simp only [geomEvents, processEvents_cons, processEvents_nil, processEvent]
      rw [point_begin_run]
      simp [coordinate_run_plain, hs, specEnc, coordBytes]
  | .lineString cs, w, i, hs => by
      simp only [geomEvents, processEvents_cons, processEvents_append, processEvent]
      rw [linestring_begin_run_normal w true cs.length i (by simp [hs])]
      simp [coordSeq_run, hs, specEnc, lineBodyBytes, processEvents_cons,
        processEvents_nil, processEvent]
  | .circularString cs, w, i, hs => by
      simp only [geomEvents, processEvents_cons, processEvents_append, processEvent]
      rw [circularstring_begin_run]
      simp [coordSeq_run, hs, specEnc, lineBodyBytes, processEvents_cons,
        processEvents_nil, processEvent]
  | .polygon rs, w, i, hs => by
      simp only [geomEvents, processEvents_cons, processEvents_append, processEvent]
      rw [polygon_begin_run]
      simp [lineSeq_run_ring, hs, specEnc, polyBodyBytes, processEvents_cons,
        processEvents_nil, processEvent, WkbWriter.polygon_end]
  | .triangle rs, w, i, hs => by
      simp only [geomEvents, processEvents_cons, processEvents_append, processEvent]
      rw [triangle_begin_run]
      simp [lineSeq_run_ring, hs, specEnc, polyBodyBytes, processEvents_cons,
        processEvents_nil, processEvent, WkbWriter.triangle_end]
  | .multiPoint cs, w, i, hs => by
      simp only [geomEvents, processEvents_cons, processEvents_append, processEvent]
      rw [multipoint_begin_run]
      simp [coordSeq_run_multipoint, hs, specEnc, processEvents_cons,
        processEvents_nil, processEvent, WkbWriter.multipoint_end]
  | .multiLineString ls, w, i, hs => by
      simp only [geomEvents, processEvents_cons, processEvents_append, processEvent]
      rw [multilinestring_begin_run]
      simp [lineSeq_run_tagged, hs, specEnc, processEvents_cons,
        processEvents_nil, processEvent]
  | .multiPolygon ps, w, i, hs => by
      simp only [geomEvents, processEvents_cons, processEvents_append, processEvent]
      rw [multipolygon_begin_run]
      simp [polySeq_run, hs, specEnc, processEvents_cons, processEvents_nil,
        processEvent]
  | .polyhedralSurface ps, w, i, hs => by
      simp only [geomEvents, processEvents_cons, processEvents_append, processEvent]
      rw [polyhedralsurface_begin_run]
      simp [polySeq_run, hs, specEnc, processEvents_cons, processEvents_nil,
        processEvent]
  | .tin ts, w, i, hs => by
      simp only [geomEvents, processEvents_cons, processEvents_append, processEvent]
      rw [tin_begin_run]
      simp [triSeq_run, hs, specEnc, processEvents_cons, processEvents_nil,
        processEvent]
  | .geometryCollection gs, w, i, hs => by
      have IH : ∀ g ∈ gs, ∀ (w2 : WkbWriter) (i2 : Nat), w2.geom_state = .Normal →
          processEvents w2 (geomEvents g i2) =
            { w2 with out := w2.out ++ specEnc w2.endian w2.dims w2.sridArg g,
                      first_header := false } :=
        fun g hg w2 i2 hs2 => geomEvents_run g w2 i2 hs2
      simp only [geomEvents, processEvents_cons, processEvents_append, processEvent]
      rw [geometrycollection_begin_run]
      simp [geomSeq_run_aux gs IH, hs, specEnc, processEvents_cons,
        processEvents_nil, processEvent]
  | .compoundCurve gs, w, i, hs => by
      have IH : ∀ g ∈ gs, ∀ (w2 : WkbWriter) (i2 : Nat), w2.geom_state = .Normal →
          processEvents w2 (geomEvents g i2) =
            { w2 with out := w2.out ++ specEnc w2.endian w2.dims w2.sridArg g,
                      first_header := false } :=
        fun g hg w2 i2 hs2 => geomEvents_run g w2 i2 hs2
      simp only [geomEvents, processEvents_cons, processEvents_append, processEvent]
      rw [compoundcurve_begin_run]
      simp [geomSeq_run_aux gs IH, hs, specEnc, processEvents_cons,
        processEvents_nil, processEvent]
  | .curvePolygon gs, w, i, hs => by
      have IH : ∀ g ∈ gs, ∀ (w2 : WkbWriter) (i2 : Nat), w2.geom_state = .Normal →
          processEvents w2 (geomEvents g i2) =
            { w2 with out := w2.out ++ specEnc w2.endian w2.dims w2.sridArg g,
                      first_header := false } :=
        fun g hg w2 i2 hs2 => geomEvents_run g w2 i2 hs2
      simp only [geomEvents, processEvents_cons, processEvents_append, processEvent]
      rw [curvepolygon_begin_run]
      simp [geomSeq_run_aux gs IH, hs, specEnc, processEvents_cons,
        processEvents_nil, processEvent]
  | .multiCurve gs, w, i, hs => by
      have IH : ∀ g ∈ gs, ∀ (w2 : WkbWriter) (i2 : Nat), w2.geom_state = .Normal →
          processEvents w2 (geomEvents g i2) =
            { w2 with out := w2.out ++ specEnc w2.endian w2.dims w2.sridArg g,
                      first_header := false } :=
        fun g hg w2 i2 hs2 => geomEvents_run g w2 i2 hs2
      simp only [geomEvents, processEvents_cons, processEvents_append, processEvent]
      rw [multicurve_begin_run]
      simp [geomSeq_run_aux gs IH, hs, specEnc, processEvents_cons,
        processEvents_nil, processEvent]
  | .multiSurface gs, w, i, hs => by
      have IH : ∀ g ∈ gs, ∀ (w2 : WkbWriter) (i2 : Nat), w2.geom_state = .Normal →
          processEvents w2 (geomEvents g i2) =
            { w2 with out := w2.out ++ specEnc w2.endian w2.dims w2.sridArg g,
                      first_header := false } :=
        fun g hg w2 i2 hs2 => geomEvents_run g w2 i2 hs2
      simp only [geomEvents, processEvents_cons, processEvents_append, processEvent]
      rw [multisurface_begin_run]
      simp [geomSeq_run_aux gs IH, hs, specEnc, processEvents_cons,
        processEvents_nil, processEvent]
termination_by g => sizeOf g
decreasing_by
  all_goals
    have := List.sizeOf_lt_of_mem hg
    simp only [Geometry.geometryCollection.sizeOf_spec, Geometry.compoundCurve.sizeOf_spec,
      Geometry.curvePolygon.sizeOf_spec, Geometry.multiCurve.sizeOf_spec,
      Geometry.multiSurface.sizeOf_spec]
    omega

theorem headerTypeId_testBit31 (d : CoordDimensions) (b : Bool) (t : WKBGeometryType) :
    (headerTypeId d b t).testBit 31 = d.z := by
  cases d with
  | mk z m => cases z <;> cases m <;> cases b <;> cases t <;> decide

theorem headerTypeId_testBit30 (d : CoordDimensions) (b : Bool) (t : WKBGeometryType) :
    (headerTypeId d b t).testBit 30 = d.m := by
  cases d with
  | mk z m => cases z <;> cases m <;> cases b <;> cases t <;> decide

theorem headerTypeId_testBit29 (d : CoordDimensions) (b : Bool) (t : WKBGeometryType) :
    (headerTypeId d b t).testBit 29 = b := by
  cases d with
  | mk z m => cases z <;> cases m <;> cases b <;> cases t <;> decide

/-- C1 (amended): Round-trip identity for little-endian input: for every
little-endian (NDR) EWKB byte sequence `b` produced by a spec-compliant
encoder (`specEnc`, the spec's §6 wire format) for a geometry `g`,
decoding `b` into the traversal callbacks (`geomEvents g`, the
interface-level model of the decoder) and re-encoding through a fresh
`WkbWriter` configured with the same dimensionality and SRID settings
appends exactly the bytes `b` to the sink.  The little-endian restriction
is forced: the writer's byte order is a private field that `new` fixes to
little-endian, see `roundtrip_identity_counterexample`. -/
theorem roundtrip_identity (d : CoordDimensions) (so : Option Int) (g : Geometry) :
    (processEvents { WkbWriter.new with dims := d, srid := so } (geomEvents g 0)).out =
      specEnc .LE d so g := by
  rw [geomEvents_run g _ 0 rfl]
  simp [WkbWriter.new, WkbWriter.sridArg]

/-- C1 counterexample to the unrestricted claim: a big-endian (XDR) EWKB
encoding of `POINT(10 -20)` is a spec-compliant encoder's output, but
decoding it and re-encoding through a fresh `WkbWriter` with the same
dimensionality and SRID settings appends different (little-endian)
bytes. -/
theorem roundtrip_identity_counterexample :
    (processEvents { WkbWriter.new with dims := CoordDimensions.default, srid := none }
        (geomEvents (.point ⟨0x4024000000000000, 0xC034000000000000, none, none⟩) 0)).out ≠
      specEnc .BE CoordDimensions.default none
        (.point ⟨0x4024000000000000, 0xC034000000000000, none, none⟩) := by
  decide

/-- Every callback preserves the writer's configuration (dims, srid,
endianness), moves the nesting state by `stateTransition`, and never
resurrects the one-shot `first_header` flag. -/
theorem processEvent_fields (w : WkbWriter) (e : Event) :
    (processEvent w e).dims = w.dims ∧
    (processEvent w e).srid = w.srid ∧
    (processEvent w e).endian = w.endian ∧
    (processEvent w e).geom_state = stateTransition w.geom_state e ∧
    ((processEvent w e).first_header = true → w.first_header = true) := by
  cases e with
  | xy x y i =>
      by_cases h : w.geom_state = .MultiPointGeom
      · simp [processEvent, xy_run_multipoint w x y i h, stateTransition]
      · simp [processEvent, xy_run_plain w x y i h, stateTransition]
  | coordinate x y z m t tm i =>
      by_cases h : w.geom_state = .MultiPointGeom
      · simp [processEvent, coordinate_run_multipoint w x y z m t tm i h, stateTransition]
      · simp [processEvent, coordinate_run_plain w x y z m t tm i h, stateTransition]
  | point_begin i => simp [processEvent, point_begin_run, stateTransition]
  | point_end i => simp [processEvent, stateTransition]
  | multipoint_begin s i => simp [processEvent, multipoint_begin_run, stateTransition]
  | multipoint_end i => simp [processEvent, WkbWriter.multipoint_end, stateTransition]
  | linestring_begin tg s i =>
      by_cases h : w.geom_state = .RingGeom
      · simp [processEvent, linestring_begin_run_ring w tg s i h, stateTransition]
      · simp [processEvent, linestring_begin_run_normal w tg s i h, stateTransition]
  | linestring_end tg i => simp [processEvent, stateTransition]
  | multilinestring_begin s i => simp [processEvent, multilinestring_begin_run, stateTransition]
  | multilinestring_end i => simp [processEvent, stateTransition]
  | polygon_begin tg s i => simp [processEvent, polygon_begin_run, stateTransition]
  | polygon_end tg i => simp [processEvent, WkbWriter.polygon_end, stateTransition]
  | multipolygon_begin s i => simp [processEvent, multipolygon_begin_run, stateTransition]
  | multipolygon_end i => simp [processEvent, stateTransition]
  | geometrycollection_begin s i =>
      simp [processEvent, geometrycollection_begin_run, stateTransition]
  | geometrycollection_end i => simp [processEvent, stateTransition]
  | circularstring_begin s i => simp [processEvent, circularstring_begin_run, stateTransition]
  | circularstring_end i => simp [processEvent, stateTransition]
  | compoundcurve_begin s i => simp [processEvent, compoundcurve_begin_run, stateTransition]
  | compoundcurve_end i => simp [processEvent, stateTransition]
  | curvepolygon_begin s i => simp [processEvent, curvepolygon_begin_run, stateTransition]
  | curvepolygon_end i => simp [processEvent, stateTransition]
  | multicurve_begin s i => simp [processEvent, multicurve_begin_run, stateTransition]
  | multicurve_end i => simp [processEvent, stateTransition]
  | multisurface_begin s i => simp [processEvent, multisurface_begin_run, stateTransition]
  | multisurface_end i => simp [processEvent, stateTransition]
  | triangle_begin tg s i => simp [processEvent, triangle_begin_run, stateTransition]
  | triangle_end tg i => simp [processEvent, WkbWriter.triangle_end, stateTransition]
  | polyhedralsurface_begin s i =>
      simp [processEvent, polyhedralsurface_begin_run, stateTransition]
  | polyhedralsurface_end i => simp [processEvent, stateTransition]
  | tin_begin s i => simp [processEvent, tin_begin_run, stateTransition]
  | tin_end i => simp [processEvent, stateTransition]

/-- C3: Dimensionality flag correctness: every header the writer emits
carries the type field `headerTypeId` — the base code OR 0x80000000 exactly
when Z is enabled (bit 31) OR 0x40000000 exactly when M is enabled
(bit 30), plus the SRID bit in the first header — and no callback ever
changes the declared dimensions, so the same flags appear in every header
of the stream. -/
theorem dimensionality_flags :
    (∀ (w : WkbWriter) (t : WKBGeometryType),
      (w.write_ewkb_header t).out =
        w.out ++ [byteOrderTag w.endian] ++
          put32 w.endian (headerTypeId w.dims (w.srid.isSome && w.first_header) t) ++
          (if w.first_header then
            (match w.srid with
             | some s => put32 w.endian (u32ofI32 s)
             | none => [])
           else []) ∧
      (headerTypeId w.dims (w.srid.isSome && w.first_header) t).testBit 31 = w.dims.z ∧
      (headerTypeId w.dims (w.srid.isSome && w.first_header) t).testBit 30 = w.dims.m) ∧
    (∀ (w : WkbWriter) (e : Event), (processEvent w e).dims = w.dims) := by
  constructor
  · intro w t
    refine ⟨?_, headerTypeId_testBit31 _ _ _, headerTypeId_testBit30 _ _ _⟩
    rw [write_ewkb_header_run]
    cases hf : w.first_header <;>
      simp [hdrBytes, WkbWriter.sridArg, hf]
  · intro w e
    exact (processEvent_fields w e).1

/-- C2: SRID one-shot placement: the SRID flag bit (0x20000000) and the
4-byte SRID value are written only while `first_header` is set — which a
header write clears unconditionally, SRID configured or not — every later
header carries neither, and no callback ever sets `first_header` back. -/
theorem srid_one_shot :
    (∀ (w : WkbWriter) (t : WKBGeometryType), w.first_header = true →
      (w.write_ewkb_header t).first_header = false ∧
      (w.write_ewkb_header t).out =
        w.out ++ [byteOrderTag w.endian] ++
          put32 w.endian (headerTypeId w.dims w.srid.isSome t) ++
          (match w.srid with
           | some s => put32 w.endian (u32ofI32 s)
           | none => []) ∧
      (headerTypeId w.dims w.srid.isSome t).testBit 29 = w.srid.isSome) ∧
    (∀ (w : WkbWriter) (t : WKBGeometryType), w.first_header = false →
      (w.write_ewkb_header t).first_header = false ∧
      (w.write_ewkb_header t).out =
        w.out ++ [byteOrderTag w.endian] ++ put32 w.endian (headerTypeId w.dims false t) ∧
      (headerTypeId w.dims false t).testBit 29 = false) ∧
    (∀ (w : WkbWriter) (e : Event),
      (processEvent w e).first_header = true → w.first_header = true) := by
  refine ⟨?_, ?_, fun w e => (processEvent_fields w e).2.2.2.2⟩
  · intro w t hf
    rw [write_ewkb_header_run]
    refine ⟨rfl, ?_, headerTypeId_testBit29 _ _ _⟩
    simp [hdrBytes, WkbWriter.sridArg, hf]
  · intro w t hf
    rw [write_ewkb_header_run]
    refine ⟨rfl, ?_, headerTypeId_testBit29 _ _ _⟩
    simp [hdrBytes, WkbWriter.sridArg, hf]

theorem srid_one_shot_witness :
    (WkbWriter.new.write_ewkb_header .Point).first_header = false ∧
    (({ WkbWriter.new with first_header := false } : WkbWriter).write_ewkb_header
      .Point).first_header = false :=
  ⟨(srid_one_shot.1 WkbWriter.new .Point rfl).1,
    (srid_one_shot.2.1 { WkbWriter.new with first_header := false } .Point rfl).1⟩

/-- C4: Ring suppression: in the RingGeom state every `linestring_begin`
appends only the 4-byte count — no byte-order tag, no type field — while
outside it a full LineString header precedes the count; `polygon_begin`
and `triangle_begin` emit exactly one header each and enter the RingGeom
state, so a whole polygon encodes as one header, the ring count, and the
headerless ring bodies. -/
theorem ring_suppression :
    (∀ (w : WkbWriter) (tg : Bool) (s i : Nat), w.geom_state = .RingGeom →
      w.linestring_begin tg s i = { w with out := w.out ++ put32 w.endian s }) ∧
    (∀ (w : WkbWriter) (tg : Bool) (s i : Nat), w.geom_state ≠ .RingGeom →
      w.linestring_begin tg s i =
        { w with
            out := w.out ++ hdrBytes w.endian w.dims w.sridArg .LineString ++
              put32 w.endian s,
            first_header := false }) ∧
    (∀ (w : WkbWriter) (tg : Bool) (s i : Nat),
      w.polygon_begin tg s i =
        { w with
            out := w.out ++ hdrBytes w.endian w.dims w.sridArg .Polygon ++ put32 w.endian s,
            first_header := false
            geom_state := .RingGeom }) ∧
    (∀ (w : WkbWriter) (tg : Bool) (s i : Nat),
      w.triangle_begin tg s i =
        { w with
            out := w.out ++ hdrBytes w.endian w.dims w.sridArg .Triangle ++ put32 w.endian s,
            first_header := false
            geom_state := .RingGeom }) ∧
    (∀ (w : WkbWriter) (rs : List (List Coord)) (i : Nat), w.geom_state = .Normal →
      processEvents w (geomEvents (.polygon rs) i) =
        { w with
            out := w.out ++ hdrBytes w.endian w.dims w.sridArg .Polygon ++
              polyBodyBytes w.endian rs,
            first_header := false }) := by
  refine ⟨linestring_begin_run_ring, linestring_begin_run_normal, polygon_begin_run,
    triangle_begin_run, ?_⟩
  intro w rs i hs
  rw [geomEvents_run (.polygon rs) w i hs]
  simp [specEnc]

theorem ring_suppression_witness :
    ({ WkbWriter.new with geom_state := .RingGeom } : WkbWriter).linestring_begin false 1 0 =
      { WkbWriter.new with geom_state := .RingGeom, out := put32 .LE 1 } := by
  have h := ring_suppression.1 { WkbWriter.new with geom_state := .RingGeom } false 1 0 rfl
  simpa [WkbWriter.new] using h

/-- C5: Multipoint tagging: in the MultiPointGeom state (first header
already written) each `xy`/`coordinate` callback first appends a full
SRID-free Point header — byte-order tag and type field, no count — then
the coordinate values; outside that state the coordinate values are
appended bare; an empty MultiPoint appends exactly its own header and a
zero count, with no Point headers. -/
theorem multipoint_tagging :
    (∀ (w : WkbWriter) (x y i : Nat), w.geom_state = .MultiPointGeom →
      w.first_header = false →
      w.xy x y i =
        { w with
            out := w.out ++ hdrBytes w.endian w.dims none .Point ++
              put64 w.endian x ++ put64 w.endian y }) ∧
    (∀ (w : WkbWriter) (x y : Nat) (z m t : Option Nat) (tm : Option Nat) (i : Nat),
      w.geom_state = .MultiPointGeom → w.first_header = false →
      w.coordinate x y z m t tm i =
        { w with
            out := w.out ++ hdrBytes w.endian w.dims none .Point ++
              coordValueBytes w.endian x y z m }) ∧
    (∀ (w : WkbWriter) (x y i : Nat), w.geom_state ≠ .MultiPointGeom →
      w.xy x y i = { w with out := w.out ++ put64 w.endian x ++ put64 w.endian y }) ∧
    (∀ (w : WkbWriter) (x y : Nat) (z m t : Option Nat) (tm : Option Nat) (i : Nat),
      w.geom_state ≠ .MultiPointGeom →
      w.coordinate x y z m t tm i =
        { w with out := w.out ++ coordValueBytes w.endian x y z m }) ∧
    (∀ (w : WkbWriter) (i j : Nat),
      processEvents w [.multipoint_begin 0 i, .multipoint_end j] =
        { w with
            out := w.out ++ hdrBytes w.endian w.dims w.sridArg .MultiPoint ++ put32 w.endian 0,
            first_header := false
            geom_state := .Normal }) := by
  refine ⟨?_, ?_, xy_run_plain, coordinate_run_plain, ?_⟩
  · intro w x y i h hf
    rw [xy_run_multipoint w x y i h]
    have hsa : w.sridArg = none := by simp [WkbWriter.sridArg, hf]
    rw [hsa, update_fh_eta _ _ hf]
  · intro w x y z m t tm i h hf
    rw [coordinate_run_multipoint w x y z m t tm i h]
    have hsa : w.sridArg = none := by simp [WkbWriter.sridArg, hf]
    rw [hsa, update_fh_eta _ _ hf]
  · intro w i j
    simp [processEvents_cons, processEvents_nil, processEvent, multipoint_begin_run,
      WkbWriter.multipoint_end]

theorem multipoint_tagging_witness :
    ({ WkbWriter.new with first_header := false, geom_state := .MultiPointGeom } :
        WkbWriter).xy 3 4 0 =
      { WkbWriter.new with
          first_header := false
          geom_state := .MultiPointGeom
          out := hdrBytes .LE CoordDimensions.default none .Point ++
            put64 .LE 3 ++ put64 .LE 4 } := by
  have h := multipoint_tagging.1
    { WkbWriter.new with first_header := false, geom_state := .MultiPointGeom } 3 4 0 rfl rfl
  simpa [WkbWriter.new] using h

/-- C6: Nesting state machine: the nesting state always moves by
`stateTransition` — RingGeom on polygon/triangle begin, back to Normal on
their ends and on multipoint end, MultiPointGeom on multipoint begin,
untouched by every other callback — and the `end` callbacks of all other
kinds are complete no-ops for this writer. -/
theorem nesting_state_machine :
    (∀ (w : WkbWriter) (e : Event),
      (processEvent w e).geom_state = stateTransition w.geom_state e) ∧
    (∀ (w : WkbWriter) (i : Nat) (tg : Bool),
      processEvent w (.point_end i) = w ∧
      processEvent w (.linestring_end tg i) = w ∧
      processEvent w (.multilinestring_end i) = w ∧
      processEvent w (.multipolygon_end i) = w ∧
      processEvent w (.geometrycollection_end i) = w ∧
      processEvent w (.circularstring_end i) = w ∧
      processEvent w (.compoundcurve_end i) = w ∧
      processEvent w (.curvepolygon_end i) = w ∧
      processEvent w (.multicurve_end i) = w ∧
      processEvent w (.multisurface_end i) = w ∧
      processEvent w (.polyhedralsurface_end i) = w ∧
      processEvent w (.tin_end i) = w) :=
  ⟨fun w e => (processEvent_fields w e).2.2.2.1,
    fun w i tg => ⟨rfl, rfl, rfl, rfl, rfl, rfl, rfl, rfl, rfl, rfl, rfl, rfl⟩⟩

/-- C7: Concrete Point encoding: on a fresh default writer, `point_begin`
followed by `xy` with the IEEE-754 bit patterns of 10.0
(0x4024000000000000) and -20.0 (0xC034000000000000) appends exactly the
bytes 01 01000000 0000000000002440 00000000000034C0, and `point_begin` is
a bare header write with no count field. -/
theorem point_concrete_encoding :
    (processEvents WkbWriter.new
        [.point_begin 0, .xy 0x4024000000000000 0xC034000000000000 0]).out =
      [0x01, 0x01, 0x00, 0x00, 0x00,
       0x00, 0x00, 0x00, 0x00, 0x00, 0x00, 0x24, 0x40,
       0x00, 0x00, 0x00, 0x00, 0x00, 0x00, 0x34, 0xC0] ∧
    (∀ (w : WkbWriter) (i : Nat), w.point_begin i = w.write_header .Point) :=
  ⟨by decide, fun w i => rfl⟩

/-- C9: Element count truncation: every composite `begin` callback stores
its `size` argument as `size as u32`, so the writer behaves identically on
`size` and `size % 2^32` — counts of 2^32 or more silently wrap instead of
failing. -/
theorem count_truncation :
    ∀ (w : WkbWriter) (s i : Nat) (tg : Bool),
      w.multipoint_begin s i = w.multipoint_begin (s % 4294967296) i ∧
      w.linestring_begin tg s i = w.linestring_begin tg (s % 4294967296) i ∧
      w.multilinestring_begin s i = w.multilinestring_begin (s % 4294967296) i ∧
      w.polygon_begin tg s i = w.polygon_begin tg (s % 4294967296) i ∧
      w.multipolygon_begin s i = w.multipolygon_begin (s % 4294967296) i ∧
      w.geometrycollection_begin s i = w.geometrycollection_begin (s % 4294967296) i ∧
      w.circularstring_begin s i = w.circularstring_begin (s % 4294967296) i ∧
      w.compoundcurve_begin s i = w.compoundcurve_begin (s % 4294967296) i ∧
      w.curvepolygon_begin s i = w.curvepolygon_begin (s % 4294967296) i ∧
      w.multicurve_begin s i = w.multicurve_begin (s % 4294967296) i ∧
      w.multisurface_begin s i = w.multisurface_begin (s % 4294967296) i ∧
      w.triangle_begin tg s i = w.triangle_begin tg (s % 4294967296) i ∧
      w.polyhedralsurface_begin s i = w.polyhedralsurface_begin (s % 4294967296) i ∧
      w.tin_begin s i = w.tin_begin (s % 4294967296) i := by
  intro w s i tg
  refine ⟨?_, ?_, ?_, ?_, ?_, ?_, ?_, ?_, ?_, ?_, ?_, ?_, ?_, ?_⟩ <;>
    simp [WkbWriter.multipoint_begin, WkbWriter.linestring_begin,
      WkbWriter.multilinestring_begin, WkbWriter.polygon_begin,
      WkbWriter.multipolygon_begin, WkbWriter.geometrycollection_begin,
      WkbWriter.circularstring_begin, WkbWriter.compoundcurve_begin,
      WkbWriter.curvepolygon_begin, WkbWriter.multicurve_begin,
      WkbWriter.multisurface_begin, WkbWriter.triangle_begin,
      WkbWriter.polyhedralsurface_begin, WkbWriter.tin_begin,
      put32_mod, Nat.mod_mod_of_dvd]

/-- C10: Index-argument noninterference: every callback ignores its `idx`
argument — two invocations differing only in `idx` produce identical
writer states (hence identical appended bytes). -/
theorem idx_noninterference :
    ∀ (w : WkbWriter) (i j : Nat),
      (∀ x y, w.xy x y i = w.xy x y j) ∧
      (∀ x y z m t tm, w.coordinate x y z m t tm i = w.coordinate x y z m t tm j) ∧
      (w.point_begin i = w.point_begin j) ∧
      (∀ s, w.multipoint_begin s i = w.multipoint_begin s j) ∧
      (w.multipoint_end i = w.multipoint_end j) ∧
      (∀ tg s, w.linestring_begin tg s i = w.linestring_begin tg s j) ∧
      (∀ s, w.multilinestring_begin s i = w.multilinestring_begin s j) ∧
      (∀ tg s, w.polygon_begin tg s i = w.polygon_begin tg s j) ∧
      (∀ tg, w.polygon_end tg i = w.polygon_end tg j) ∧
      (∀ s, w.multipolygon_begin s i = w.multipolygon_begin s j) ∧
      (∀ s, w.geometrycollection_begin s i = w.geometrycollection_begin s j) ∧
      (∀ s, w.circularstring_begin s i = w.circularstring_begin s j) ∧
      (∀ s, w.compoundcurve_begin s i = w.compoundcurve_begin s j) ∧
      (∀ s, w.curvepolygon_begin s i = w.curvepolygon_begin s j) ∧
      (∀ s, w.multicurve_begin s i = w.multicurve_begin s j) ∧
      (∀ s, w.multisurface_begin s i = w.multisurface_begin s j) ∧
      (∀ tg s, w.triangle_begin tg s i = w.triangle_begin tg s j) ∧
      (∀ tg, w.triangle_end tg i = w.triangle_end tg j) ∧
      (∀ s, w.polyhedralsurface_begin s i = w.polyhedralsurface_begin s j) ∧
      (∀ s, w.tin_begin s i = w.tin_begin s j) ∧
      (processEvent w (.point_end i) = processEvent w (.point_end j)) ∧
      (∀ tg, processEvent w (.linestring_end tg i) = processEvent w (.linestring_end tg j)) ∧
      (processEvent w (.multilinestring_end i) = processEvent w (.multilinestring_end j)) ∧
      (processEvent w (.multipolygon_end i) = processEvent w (.multipolygon_end j)) ∧
      (processEvent w (.geometrycollection_end i) =
        processEvent w (.geometrycollection_end j)) ∧
      (processEvent w (.circularstring_end i) = processEvent w (.circularstring_end j)) ∧
      (processEvent w (.compoundcurve_end i) = processEvent w (.compoundcurve_end j)) ∧
      (processEvent w (.curvepolygon_end i) = processEvent w (.curvepolygon_end j)) ∧
      (processEvent w (.multicurve_end i) = processEvent w (.multicurve_end j)) ∧
      (processEvent w (.multisurface_end i) = processEvent w (.multisurface_end j)) ∧
      (processEvent w (.polyhedralsurface_end i) =
        processEvent w (.polyhedralsurface_end j)) ∧
      (processEvent w (.tin_end i) = processEvent w (.tin_end j)) :=
  fun w i j =>
    ⟨fun _ _ => rfl, fun _ _ _ _ _ _ => rfl, rfl, fun _ => rfl, rfl, fun _ _ => rfl,
      fun _ => rfl, fun _ _ => rfl, fun _ => rfl, fun _ => rfl, fun _ => rfl, fun _ => rfl,
      fun _ => rfl, fun _ => rfl, fun _ => rfl, fun _ => rfl, fun _ _ => rfl, fun _ => rfl,
      fun _ => rfl, fun _ => rfl, rfl, fun _ => rfl, rfl, rfl, rfl, rfl, rfl, rfl, rfl,
      rfl, rfl, rfl⟩

theorem modelsRhs_none (P : WkbWriter → WkbWriter) (w : WkbWriterF)
    (hfa : w.sink.failAt = none) : modelsRhs P w = modelsOk P w := by
  unfold modelsRhs
  rw [hfa]

theorem modelsRhs_some (P : WkbWriter → WkbWriter) (w : WkbWriterF) (n : Nat)
    (hfa : w.sink.failAt = some n) :
    modelsRhs P w =
      if (P w.toPure).out.length ≤ n ∨ (P w.toPure).out.length = w.sink.bytes.length
      then modelsOk P w
      else .error w.sink.errCode := by
  unfold modelsRhs
  rw [hfa]

theorem toPure_dims (w : WkbWriterF) : w.toPure.dims = w.dims := rfl

theorem toPure_srid (w : WkbWriterF) : w.toPure.srid = w.srid := rfl

theorem toPure_endian (w : WkbWriterF) : w.toPure.endian = w.endian := rfl

theorem toPure_fh (w : WkbWriterF) : w.toPure.first_header = w.first_header := rfl

theorem toPure_gs (w : WkbWriterF) : w.toPure.geom_state = w.geom_state := rfl

theorem toPure_out (w : WkbWriterF) : w.toPure.out = w.sink.bytes := rfl

theorem toPure_pureToF (v : WkbWriter) (fa : Option Nat) (ec : Nat) :
    (pureToF v fa ec).toPure = v := rfl

theorem pureToF_toPure (w : WkbWriterF) :
    pureToF w.toPure w.sink.failAt w.sink.errCode = w := rfl

/-- `Sink.puts` in closed form: with no threshold it appends; with
threshold `n` it appends when the final length stays within `n` or when
there is nothing to write, and otherwise fails with the sink's error. -/
theorem puts_eq (bs : List Nat) (s : Sink) :
    s.puts bs =
      match s.failAt with
      | none => .ok { s with bytes := s.bytes ++ bs }
      | some n =>
          if s.bytes.length + bs.length ≤ n ∨ bs = []
          then .ok { s with bytes := s.bytes ++ bs }
          else .error s.errCode := by
  induction bs generalizing s with
  | nil => cases hfa : s.failAt <;> simp [Sink.puts, hfa] <;> rw [← hfa]
  | cons b rest ih =>
      cases hfa : s.failAt with
      | none =>
          simp only [Sink.puts, Sink.putByte, hfa]
          rw [ih]
          simp
      | some n =>
          by_cases hn : n ≤ s.bytes.length
          · have hc : ¬(s.bytes.length + (b :: rest).length ≤ n ∨ (b :: rest) = []) := by
              simp
              omega
            simp only [Sink.puts, Sink.putByte, hfa]
            rw [if_pos hn, if_neg hc]
          · simp only [Sink.puts, Sink.putByte, hfa, if_neg hn]
            rw [ih]
            simp only []
            rcases Decidable.em (rest = []) with hr | hr
            · subst hr
              have h1 : ({ s with bytes := s.bytes ++ [b] } : Sink).bytes.length +
                  ([] : List Nat).length ≤ n ∨ ([] : List Nat) = [] := Or.inr rfl
              have h2 : s.bytes.length + [b].length ≤ n ∨ (b :: ([] : List Nat)) = [] := by
                left
                simp
                omega
              rw [if_pos h1, if_pos h2]
              simp
            · have hiff : (({ s with bytes := s.bytes ++ [b] } : Sink).bytes.length +
                  rest.length ≤ n ∨ rest = []) ↔
                  (s.bytes.length + (b :: rest).length ≤ n ∨ (b :: rest) = []) := by
                simp [hr]
                omega
              rw [if_congr hiff rfl rfl]
              split_ifs with h
              all_goals simp_all

/-- The identity step is modelled by returning the state unchanged. -/
theorem models_id : Models (fun w => pure w) (fun v => v) := by
  constructor
  · intro v
    exact ⟨[], by simp⟩
  · intro w
    cases hfa : w.sink.failAt with
    | none =>
        rw [modelsRhs_none _ _ hfa]
        rfl
    | some n =>
        have hc : w.toPure.out.length ≤ n ∨ w.toPure.out.length = w.sink.bytes.length :=
          Or.inr (by rw [toPure_out])
        rw [modelsRhs_some _ _ n hfa, if_pos hc]
        rfl

/-- A raw byte write is modelled by appending those bytes. -/
theorem models_put (f : WkbWriter → List Nat) :
    Models (fun w => w.put (f w.toPure)) (fun v => v.put (f v)) := by
  constructor
  · intro v
    exact ⟨f v, rfl⟩
  · intro w
    simp only [WkbWriterF.put]
    rw [puts_eq]
    cases hfa : w.sink.failAt with
    | none =>
        rw [modelsRhs_none _ _ hfa]
        simp only [hfa]
        cases w with
        | mk d sr en fh gs sk =>
            cases sk with
            | mk bts fa ec =>
                simp only at hfa
                subst hfa
                rfl
    | some n =>
        rw [modelsRhs_some _ _ n hfa]
        simp only [hfa]
        have hiff : (w.sink.bytes.length + (f w.toPure).length ≤ n ∨ f w.toPure = []) ↔
            ((w.toPure.put (f w.toPure)).out.length ≤ n ∨
              (w.toPure.put (f w.toPure)).out.length = w.sink.bytes.length) := by
          rw [← List.length_eq_zero]
          simp [WkbWriter.put, toPure_out]
        rw [if_congr hiff rfl rfl]
        split_ifs with h
        · cases w with
          | mk d sr en fh gs sk =>
              cases sk with
              | mk bts fa ec =>
                  simp only at hfa
                  subst hfa
                  rfl
        · rfl

theorem pureToF_failAt (v : WkbWriter) (fa : Option Nat) (ec : Nat) :
    (pureToF v fa ec).sink.failAt = fa := rfl

theorem pureToF_bytes (v : WkbWriter) (fa : Option Nat) (ec : Nat) :
    (pureToF v fa ec).sink.bytes = v.out := rfl

theorem pureToF_errCode (v : WkbWriter) (fa : Option Nat) (ec : Nat) :
    (pureToF v fa ec).sink.errCode = ec := rfl

/-- Sequencing two modelled steps is modelled by their composition. -/
theorem models_bind {F G : WkbWriterF → Except Nat WkbWriterF}
    {P Q : WkbWriter → WkbWriter} (hF : Models F P) (hG : Models G Q) :
    Models (fun w => F w >>= G) (fun v => Q (P v)) := by
  constructor
  · intro v
    obtain ⟨d1, h1⟩ := hF.1 v
    obtain ⟨d2, h2⟩ := hG.1 (P v)
    exact ⟨d1 ++ d2, by rw [h2, h1, List.append_assoc]⟩
  · intro w
    have hbp : w.sink.bytes.length ≤ (P w.toPure).out.length := by
      obtain ⟨d1, hd1⟩ := hF.1 w.toPure
      rw [show w.sink.bytes = w.toPure.out from rfl, hd1]
      simp
    have hpq : (P w.toPure).out.length ≤ (Q (P w.toPure)).out.length := by
      obtain ⟨d2, hd2⟩ := hG.1 (P w.toPure)
      rw [hd2]
      simp
    show F w >>= G = modelsRhs (fun v => Q (P v)) w
    rw [hF.2 w]
    cases hfa : w.sink.failAt with
    | none =>
        rw [modelsRhs_none P w hfa, modelsRhs_none (fun v => Q (P v)) w hfa]
        rw [show modelsOk P w >>= G =
            G (pureToF (P w.toPure) w.sink.failAt w.sink.errCode) from rfl]
        rw [hG.2 _]
        rw [modelsRhs_none Q _ (by rw [pureToF_failAt, hfa])]
        simp only [modelsOk, toPure_pureToF, pureToF_failAt, pureToF_errCode]
    | some n =>
        rw [modelsRhs_some P w n hfa, modelsRhs_some (fun v => Q (P v)) w n hfa]
        by_cases h1 : (P w.toPure).out.length ≤ n ∨
            (P w.toPure).out.length = w.sink.bytes.length
        · rw [if_pos h1]
          rw [show modelsOk P w >>= G =
              G (pureToF (P w.toPure) w.sink.failAt w.sink.errCode) from rfl]
          rw [hG.2 _]
          rw [modelsRhs_some Q _ n (by rw [pureToF_failAt, hfa])]
          simp only [modelsOk, toPure_pureToF, pureToF_failAt, pureToF_bytes,
            pureToF_errCode]
          split_ifs with h2 h3 <;> first | rfl | omega
        · rw [if_neg h1]
          rw [show (Except.error w.sink.errCode : Except Nat WkbWriterF) >>= G =
              .error w.sink.errCode from rfl]
          rw [if_neg (by omega)]

theorem modelsRhs_congr (P Q : WkbWriter → WkbWriter) (w : WkbWriterF)
    (h : P w.toPure = Q w.toPure) : modelsRhs P w = modelsRhs Q w := by
  cases hfa : w.sink.failAt with
  | none =>
      rw [modelsRhs_none P w hfa, modelsRhs_none Q w hfa]
      simp [modelsOk, h]
  | some n =>
      rw [modelsRhs_some P w n hfa, modelsRhs_some Q w n hfa]
      rw [show modelsOk P w = modelsOk Q w from by simp [modelsOk, h], h]

/-- A pure nesting-state update is modelled by the same update. -/
theorem models_update_gs (s : GeomState) :
    Models (fun w => pure { w with geom_state := s })
      (fun v => { v with geom_state := s }) := by
  constructor
  · intro v
    exact ⟨[], by simp⟩
  · intro w
    cases hfa : w.sink.failAt with
    | none =>
        rw [modelsRhs_none _ _ hfa]
        cases w with
        | mk d sr en fh gs sk =>
            cases sk with
            | mk bts fa ec =>
                simp only at hfa
                subst hfa
                rfl
    | some n =>
        have hc : ({ w.toPure with geom_state := s } : WkbWriter).out.length ≤ n ∨
            ({ w.toPure with geom_state := s } : WkbWriter).out.length =
              w.sink.bytes.length := Or.inr rfl
        rw [modelsRhs_some _ _ n hfa, if_pos hc]
        cases w with
        | mk d sr en fh gs sk =>
            cases sk with
            | mk bts fa ec =>
                simp only at hfa
                subst hfa
                rfl

/-- Clearing the one-shot `first_header` flag is modelled by the same
update. -/
theorem models_update_fh :
    Models (fun w => pure { w with first_header := false })
      (fun v => { v with first_header := false }) := by
  constructor
  · intro v
    exact ⟨[], by simp⟩
  · intro w
    cases hfa : w.sink.failAt with
    | none =>
        rw [modelsRhs_none _ _ hfa]
        cases w with
        | mk d sr en fh gs sk =>
            cases sk with
            | mk bts fa ec =>
                simp only at hfa
                subst hfa
                rfl
    | some n =>
        have hc : ({ w.toPure with first_header := false } : WkbWriter).out.length ≤ n ∨
            ({ w.toPure with first_header := false } : WkbWriter).out.length =
              w.sink.bytes.length := Or.inr rfl
        rw [modelsRhs_some _ _ n hfa, if_pos hc]
        cases w with
        | mk d sr en fh gs sk =>
            cases sk with
            | mk bts fa ec =>
                simp only at hfa
                subst hfa
                rfl

/-- Branching on equality of the nesting state is modelled branchwise. -/
theorem models_ite_gs (c : GeomState) {F : WkbWriterF → Except Nat WkbWriterF}
    {P : WkbWriter → WkbWriter} (hF : Models F P) :
    Models (fun w => if w.geom_state = c then F w else pure w)
      (fun v => if v.geom_state = c then P v else v) := by
  constructor
  · intro v
    simp only []
    by_cases h : v.geom_state = c
    · rw [if_pos h]
      exact hF.1 v
    · rw [if_neg h]
      exact ⟨[], by simp⟩
  · intro w
    simp only []
    by_cases h : w.geom_state = c
    · have hp : w.toPure.geom_state = c := h
      rw [if_pos h, hF.2 w]
      refine modelsRhs_congr _ _ w ?_
      show P w.toPure = if w.toPure.geom_state = c then P w.toPure else w.toPure
      rw [if_pos hp]
    · have hp : ¬w.toPure.geom_state = c := h
      have h0 : (pure w : Except Nat WkbWriterF) = modelsRhs (fun v => v) w :=
        models_id.2 w
      rw [if_neg h, h0]
      refine modelsRhs_congr _ _ w ?_
      show w.toPure = if w.toPure.geom_state = c then P w.toPure else w.toPure
      rw [if_neg hp]

/-- Branching on inequality of the nesting state is modelled branchwise. -/
theorem models_ite_gs_ne (c : GeomState) {F : WkbWriterF → Except Nat WkbWriterF}
    {P : WkbWriter → WkbWriter} (hF : Models F P) :
    Models (fun w => if w.geom_state ≠ c then F w else pure w)
      (fun v => if v.geom_state ≠ c then P v else v) := by
  constructor
  · intro v
    simp only []
    by_cases h : v.geom_state ≠ c
    · rw [if_pos h]
      exact hF.1 v
    · rw [if_neg h]
      exact ⟨[], by simp⟩
  · intro w
    simp only []
    by_cases h : w.geom_state ≠ c
    · have hp : w.toPure.geom_state ≠ c := h
      rw [if_pos h, hF.2 w]
      refine modelsRhs_congr _ _ w ?_
      show P w.toPure = if w.toPure.geom_state ≠ c then P w.toPure else w.toPure
      rw [if_pos hp]
    · have hp : ¬w.toPure.geom_state ≠ c := h
      have h0 : (pure w : Except Nat WkbWriterF) = modelsRhs (fun v => v) w :=
        models_id.2 w
      rw [if_neg h, h0]
      refine modelsRhs_congr _ _ w ?_
      show w.toPure = if w.toPure.geom_state ≠ c then P w.toPure else w.toPure
      rw [if_neg hp]

/-- Branching on the `first_header` flag is modelled branchwise. -/
theorem models_ite_fh {F : WkbWriterF → Except Nat WkbWriterF}
    {P : WkbWriter → WkbWriter} (hF : Models F P) :
    Models (fun w => if w.first_header then F w else pure w)
      (fun v => if v.first_header then P v else v) := by
  constructor
  · intro v
    simp only []
    by_cases h : v.first_header
    · rw [if_pos h]
      exact hF.1 v
    · rw [if_neg h]
      exact ⟨[], by simp⟩
  · intro w
    simp only []
    by_cases h : w.first_header
    · have hp : w.toPure.first_header := h
      rw [if_pos h, hF.2 w]
      refine modelsRhs_congr _ _ w ?_
      show P w.toPure = if w.toPure.first_header then P w.toPure else w.toPure
      rw [if_pos hp]
    · have hp : ¬w.toPure.first_header := h
      have h0 : (pure w : Except Nat WkbWriterF) = modelsRhs (fun v => v) w :=
        models_id.2 w
      rw [if_neg h, h0]
      refine modelsRhs_congr _ _ w ?_
      show w.toPure = if w.toPure.first_header then P w.toPure else w.toPure
      rw [if_neg hp]

/-- The conditional SRID write of the first header is modelled by the same
conditional write. -/
theorem models_srid_put :
    Models (fun w =>
        match w.srid with
        | some srid => w.put (put32 w.endian (u32ofI32 srid))
        | none => pure w)
      (fun v =>
        match v.srid with
        | some srid => v.put (put32 v.endian (u32ofI32 srid))
        | none => v) := by
  constructor
  · intro v
    cases hs : v.srid with
    | none => exact ⟨[], by simp only []; rw [hs]; simp⟩
    | some s => exact ⟨put32 v.endian (u32ofI32 s), by simp only []; rw [hs]; rfl⟩
  · intro w
    cases hs : w.srid with
    | none =>
        have hp : w.toPure.srid = none := hs
        simp only []
        rw [hs]
        have h0 : (pure w : Except Nat WkbWriterF) = modelsRhs (fun v => v) w :=
          models_id.2 w
        show (pure w : Except Nat WkbWriterF) = _
        rw [h0]
        refine modelsRhs_congr _ _ w ?_
        show w.toPure =
          match w.toPure.srid with
          | some srid => w.toPure.put (put32 w.toPure.endian (u32ofI32 srid))
          | none => w.toPure
        rw [hp]
    | some s =>
        have hp : w.toPure.srid = some s := hs
        simp only []
        rw [hs]
        show (fun w2 : WkbWriterF =>
          w2.put (put32 w2.toPure.endian (u32ofI32 s))) w = _
        rw [(models_put (fun v => put32 v.endian (u32ofI32 s))).2 w]
        refine modelsRhs_congr _ _ w ?_
        show w.toPure.put (put32 w.toPure.endian (u32ofI32 s)) =
          match w.toPure.srid with
          | some srid => w.toPure.put (put32 w.toPure.endian (u32ofI32 srid))
          | none => w.toPure
        rw [hp]

/-- The join-point translation of the conditional SRID write followed by a
continuation is modelled branchwise. -/
theorem models_match_srid_bind {K : WkbWriterF → Except Nat WkbWriterF}
    {KP : WkbWriter → WkbWriter} (hK : Models K KP) :
    Models (fun w =>
        match w.srid with
        | some srid => w.put (put32 w.endian (u32ofI32 srid)) >>= K
        | none => pure w >>= K)
      (fun v =>
        KP (match v.srid with
        | some srid => v.put (put32 v.endian (u32ofI32 srid))
        | none => v)) := by
  constructor
  · intro v
    simp only []
    cases hs : v.srid with
    | none => exact hK.1 v
    | some s =>
        obtain ⟨d2, h2⟩ := hK.1 (v.put (put32 v.endian (u32ofI32 s)))
        refine ⟨put32 v.endian (u32ofI32 s) ++ d2, ?_⟩
        show (KP (v.put (put32 v.endian (u32ofI32 s)))).out =
          v.out ++ (put32 v.endian (u32ofI32 s) ++ d2)
        rw [h2]
        simp [WkbWriter.put]
  · intro w
    simp only []
    cases hs : w.srid with
    | none =>
        have hp : w.toPure.srid = none := hs
        have h0 : pure w >>= K = modelsRhs (fun v => KP v) w :=
          (models_bind models_id hK).2 w
        refine h0.trans (modelsRhs_congr _ _ w ?_)
        show KP w.toPure =
          KP (match w.toPure.srid with
          | some srid => w.toPure.put (put32 w.toPure.endian (u32ofI32 srid))
          | none => w.toPure)
        rw [hp]
    | some s =>
        have hp : w.toPure.srid = some s := hs
        have h0 : w.put (put32 w.endian (u32ofI32 s)) >>= K =
            modelsRhs (fun v => KP (v.put (put32 v.endian (u32ofI32 s)))) w :=
          (models_bind (models_put (fun v => put32 v.endian (u32ofI32 s))) hK).2 w
        refine h0.trans (modelsRhs_congr _ _ w ?_)
        show KP (w.toPure.put (put32 w.toPure.endian (u32ofI32 s))) =
          KP (match w.toPure.srid with
          | some srid => w.toPure.put (put32 w.toPure.endian (u32ofI32 srid))
          | none => w.toPure)
        rw [hp]

/-- The join-point translation of a conditional header write (condition:
nesting state equals `c`) followed by a continuation is modelled
branchwise. -/
theorem models_ite_gs_bind (c : GeomState) {H K : WkbWriterF → Except Nat WkbWriterF}
    {HP KP : WkbWriter → WkbWriter} (hH : Models H HP) (hK : Models K KP) :
    Models (fun w => if w.geom_state = c then H w >>= K else pure w >>= K)
      (fun v => KP (if v.geom_state = c then HP v else v)) := by
  constructor
  · intro v
    simp only []
    by_cases h : v.geom_state = c
    · obtain ⟨d1, h1⟩ := hH.1 v
      obtain ⟨d2, h2⟩ := hK.1 (HP v)
      refine ⟨d1 ++ d2, ?_⟩
      rw [if_pos h, h2, h1, List.append_assoc]
    · obtain ⟨d2, h2⟩ := hK.1 v
      refine ⟨d2, ?_⟩
      rw [if_neg h, h2]
  · intro w
    simp only []
    by_cases h : w.geom_state = c
    · have hp : w.toPure.geom_state = c := h
      have h0 : H w >>= K = modelsRhs (fun v => KP (HP v)) w := (models_bind hH hK).2 w
      rw [if_pos h, h0]
      refine modelsRhs_congr _ _ w ?_
      show KP (HP w.toPure) =
        KP (if w.toPure.geom_state = c then HP w.toPure else w.toPure)
      rw [if_pos hp]
    · have hp : ¬(w.toPure.geom_state = c) := h
      have h0 : pure w >>= K = modelsRhs (fun v => KP v) w :=
        (models_bind models_id hK).2 w
      rw [if_neg h, h0]
      refine modelsRhs_congr _ _ w ?_
      show KP w.toPure =
        KP (if w.toPure.geom_state = c then HP w.toPure else w.toPure)
      rw [if_neg hp]

/-- As `models_ite_gs_bind`, with a negated condition. -/
theorem models_ite_gs_ne_bind (c : GeomState)
    {H K : WkbWriterF → Except Nat WkbWriterF}
    {HP KP : WkbWriter → WkbWriter} (hH : Models H HP) (hK : Models K KP) :
    Models (fun w => if w.geom_state ≠ c then H w >>= K else pure w >>= K)
      (fun v => KP (if v.geom_state ≠ c then HP v else v)) := by
  constructor
  · intro v
    simp only []
    by_cases h : v.geom_state ≠ c
    · obtain ⟨d1, h1⟩ := hH.1 v
      obtain ⟨d2, h2⟩ := hK.1 (HP v)
      refine ⟨d1 ++ d2, ?_⟩
      rw [if_pos h, h2, h1, List.append_assoc]
    · obtain ⟨d2, h2⟩ := hK.1 v
      refine ⟨d2, ?_⟩
      rw [if_neg h, h2]
  · intro w
    simp only []
    by_cases h : w.geom_state ≠ c
    · have hp : w.toPure.geom_state ≠ c := h
      have h0 : H w >>= K = modelsRhs (fun v => KP (HP v)) w := (models_bind hH hK).2 w
      rw [if_pos h, h0]
      refine modelsRhs_congr _ _ w ?_
      show KP (HP w.toPure) =
        KP (if w.toPure.geom_state ≠ c then HP w.toPure else w.toPure)
      rw [if_pos hp]
    · have hp : ¬(w.toPure.geom_state ≠ c) := h
      have h0 : pure w >>= K = modelsRhs (fun v => KP v) w :=
        (models_bind models_id hK).2 w
      rw [if_neg h, h0]
      refine modelsRhs_congr _ _ w ?_
      show KP w.toPure =
        KP (if w.toPure.geom_state ≠ c then HP w.toPure else w.toPure)
      rw [if_neg hp]

/-- The fallible header write refines the pure header write. -/
theorem models_header (t : WKBGeometryType) :
    Models (fun w => w.write_ewkb_header t) (fun v => v.write_ewkb_header t) :=
  models_bind (models_put (fun v => [byteOrderTag v.endian]))
    (models_bind
      (models_put (fun v =>
        put32 v.endian
          (let type_id := t.code
           let type_id := if v.dims.z then type_id ||| 0x80000000 else type_id
           let type_id := if v.dims.m then type_id ||| 0x40000000 else type_id
           if v.srid.isSome && v.first_header then type_id ||| 0x20000000 else type_id)))
      (models_ite_fh (models_match_srid_bind models_update_fh)))

theorem models_xy (x y i : Nat) :
    Models (fun w => w.xy x y i) (fun v => v.xy x y i) :=
  models_ite_gs_bind .MultiPointGeom (models_header .Point)
    (models_bind (models_put (fun v => put64 v.endian x))
      (models_put (fun v => put64 v.endian y)))

theorem models_coordinate (x y : Nat) (z m t tm : Option Nat) (i : Nat) :
    Models (fun w => w.coordinate x y z m t tm i)
      (fun v => v.coordinate x y z m t tm i) := by
  cases z with
  | none =>
      cases m with
      | none =>
          exact models_ite_gs_bind .MultiPointGeom (models_header .Point)
            (models_bind (models_put (fun v => put64 v.endian x))
              (models_bind (models_put (fun v => put64 v.endian y))
                (models_bind models_id models_id)))
      | some mm =>
          exact models_ite_gs_bind .MultiPointGeom (models_header .Point)
            (models_bind (models_put (fun v => put64 v.endian x))
              (models_bind (models_put (fun v => put64 v.endian y))
                (models_bind models_id (models_put (fun v => put64 v.endian mm)))))
  | some zz =>
      cases m with
      | none =>
          exact models_ite_gs_bind .MultiPointGeom (models_header .Point)
            (models_bind (models_put (fun v => put64 v.endian x))
              (models_bind (models_put (fun v => put64 v.endian y))
                (models_bind (models_put (fun v => put64 v.endian zz)) models_id)))
      | some mm =>
          exact models_ite_gs_bind .MultiPointGeom (models_header .Point)
            (models_bind (models_put (fun v => put64 v.endian x))
              (models_bind (models_put (fun v => put64 v.endian y))
                (models_bind (models_put (fun v => put64 v.endian zz))
                  (models_put (fun v => put64 v.endian mm)))))

theorem models_point_begin (i : Nat) :
    Models (fun w => w.point_begin i) (fun v => v.point_begin i) :=
  models_header .Point

theorem models_multipoint_begin (s i : Nat) :
    Models (fun w => w.multipoint_begin s i) (fun v => v.multipoint_begin s i) :=
  models_bind (models_header .MultiPoint)
    (models_bind (models_put (fun v => put32 v.endian (s % 4294967296)))
      (models_update_gs .MultiPointGeom))

theorem models_multipoint_end (i : Nat) :
    Models (fun w => w.multipoint_end i) (fun v => v.multipoint_end i) :=
  models_update_gs .Normal

theorem models_linestring_begin (tg : Bool) (s i : Nat) :
    Models (fun w => w.linestring_begin tg s i) (fun v => v.linestring_begin tg s i) :=
  models_ite_gs_ne_bind .RingGeom (models_header .LineString)
    (models_put (fun v => put32 v.endian (s % 4294967296)))

theorem models_multilinestring_begin (s i : Nat) :
    Models (fun w => w.multilinestring_begin s i)
      (fun v => v.multilinestring_begin s i) :=
  models_bind (models_header .MultiLineString)
    (models_put (fun v => put32 v.endian (s % 4294967296)))

theorem models_polygon_begin (tg : Bool) (s i : Nat) :
    Models (fun w => w.polygon_begin tg s i) (fun v => v.polygon_begin tg s i) :=
  models_bind (models_header .Polygon)
    (models_bind (models_put (fun v => put32 v.endian (s % 4294967296)))
      (models_update_gs .RingGeom))

theorem models_polygon_end (tg : Bool) (i : Nat) :
    Models (fun w => w.polygon_end tg i) (fun v => v.polygon_end tg i) :=
  models_update_gs .Normal

theorem models_multipolygon_begin (s i : Nat) :
    Models (fun w => w.multipolygon_begin s i) (fun v => v.multipolygon_begin s i) :=
  models_bind (models_header .MultiPolygon)
    (models_put (fun v => put32 v.endian (s % 4294967296)))

theorem models_geometrycollection_begin (s i : Nat) :
    Models (fun w => w.geometrycollection_begin s i)
      (fun v => v.geometrycollection_begin s i) :=
  models_bind (models_header .GeometryCollection)
    (models_put (fun v => put32 v.endian (s % 4294967296)))

theorem models_circularstring_begin (s i : Nat) :
    Models (fun w => w.circularstring_begin s i)
      (fun v => v.circularstring_begin s i) :=
  models_bind (models_header .CircularString)
    (models_put (fun v => put32 v.endian (s % 4294967296)))

theorem models_compoundcurve_begin (s i : Nat) :
    Models (fun w => w.compoundcurve_begin s i)
      (fun v => v.compoundcurve_begin s i) :=
  models_bind (models_header .CompoundCurve)
    (models_put (fun v => put32 v.endian (s % 4294967296)))

theorem models_curvepolygon_begin (s i : Nat) :
    Models (fun w => w.curvepolygon_begin s i) (fun v => v.curvepolygon_begin s i) :=
  models_bind (models_header .CurvePolygon)
    (models_put (fun v => put32 v.endian (s % 4294967296)))

theorem models_multicurve_begin (s i : Nat) :
    Models (fun w => w.multicurve_begin s i) (fun v => v.multicurve_begin s i) :=
  models_bind (models_header .MultiCurve)
    (models_put (fun v => put32 v.endian (s % 4294967296)))

theorem models_multisurface_begin (s i : Nat) :
    Models (fun w => w.multisurface_begin s i) (fun v => v.multisurface_begin s i) :=
  models_bind (models_header .MultiSurface)
    (models_put (fun v => put32 v.endian (s % 4294967296)))

theorem models_triangle_begin (tg : Bool) (s i : Nat) :
    Models (fun w => w.triangle_begin tg s i) (fun v => v.triangle_begin tg s i) :=
  models_bind (models_header .Triangle)
    (models_bind (models_put (fun v => put32 v.endian (s % 4294967296)))
      (models_update_gs .RingGeom))

theorem models_triangle_end (tg : Bool) (i : Nat) :
    Models (fun w => w.triangle_end tg i) (fun v => v.triangle_end tg i) :=
  models_update_gs .Normal

theorem models_polyhedralsurface_begin (s i : Nat) :
    Models (fun w => w.polyhedralsurface_begin s i)
      (fun v => v.polyhedralsurface_begin s i) :=
  models_bind (models_header .PolyhedralSurface)
    (models_put (fun v => put32 v.endian (s % 4294967296)))

theorem models_tin_begin (s i : Nat) :
    Models (fun w => w.tin_begin s i) (fun v => v.tin_begin s i) :=
  models_bind (models_header .Tin)
    (models_put (fun v => put32 v.endian (s % 4294967296)))

/-- Every fallible callback refines its pure counterpart. -/
theorem models_processEvent (e : Event) :
    Models (fun w => processEventF w e) (fun v => processEvent v e) := by
  cases e with
  | xy x y i => exact models_xy x y i
  | coordinate x y z m t tm i => exact models_coordinate x y z m t tm i
  | point_begin i => exact models_point_begin i
  | point_end i => exact models_id
  | multipoint_begin s i => exact models_multipoint_begin s i
  | multipoint_end i => exact models_multipoint_end i
  | linestring_begin tg s i => exact models_linestring_begin tg s i
  | linestring_end tg i => exact models_id
  | multilinestring_begin s i => exact models_multilinestring_begin s i
  | multilinestring_end i => exact models_id
  | polygon_begin tg s i => exact models_polygon_begin tg s i
  | polygon_end tg i => exact models_polygon_end tg i
  | multipolygon_begin s i => exact models_multipolygon_begin s i
  | multipolygon_end i => exact models_id
  | geometrycollection_begin s i => exact models_geometrycollection_begin s i
  | geometrycollection_end i => exact models_id
  | circularstring_begin s i => exact models_circularstring_begin s i
  | circularstring_end i => exact models_id
  | compoundcurve_begin s i => exact models_compoundcurve_begin s i
  | compoundcurve_end i => exact models_id
  | curvepolygon_begin s i => exact models_curvepolygon_begin s i
  | curvepolygon_end i => exact models_id
  | multicurve_begin s i => exact models_multicurve_begin s i
  | multicurve_end i => exact models_id
  | multisurface_begin s i => exact models_multisurface_begin s i
  | multisurface_end i => exact models_id
  | triangle_begin tg s i => exact models_triangle_begin tg s i
  | triangle_end tg i => exact models_triangle_end tg i
  | polyhedralsurface_begin s i => exact models_polyhedralsurface_begin s i
  | polyhedralsurface_end i => exact models_id
  | tin_begin s i => exact models_tin_begin s i
  | tin_end i => exact models_id

/-- Validation against the repository's EWKB round-trip test vector for
`SRID=4326;MULTIPOINT (10 -20 100, 0 -0.5 101)` with Z enabled: the
writer reproduces the vector byte for byte (coordinates given as
IEEE-754 bit patterns of 10.0, -20.0, 100.0, 0.0, -0.5, 101.0). -/
theorem multipoint_srid_vector :
    (processEvents { WkbWriter.new with dims := ⟨true, false⟩, srid := some 4326 }
      [.multipoint_begin 2 0,
       .coordinate 0x4024000000000000 0xC034000000000000 (some 0x4059000000000000)
         none none none 0,
       .coordinate 0 0xBFE0000000000000 (some 0x4059400000000000) none none none 1,
       .multipoint_end 0]).out =
      [0x01, 0x04, 0x00, 0x00, 0xA0, 0xE6, 0x10, 0x00, 0x00, 0x02, 0x00, 0x00, 0x00,
       0x01, 0x01, 0x00, 0x00, 0x80, 0x00, 0x00, 0x00, 0x00, 0x00, 0x00, 0x24, 0x40,
       0x00, 0x00, 0x00, 0x00, 0x00, 0x00, 0x34, 0xC0, 0x00, 0x00, 0x00, 0x00, 0x00,
       0x00, 0x59, 0x40, 0x01, 0x01, 0x00, 0x00, 0x80, 0x00, 0x00, 0x00, 0x00, 0x00,
       0x00, 0x00, 0x00, 0x00, 0x00, 0x00, 0x00, 0x00, 0x00, 0xE0, 0xBF, 0x00, 0x00,
       0x00, 0x00, 0x00, 0x40, 0x59, 0x40] := by
  decide

/-- C8: Error propagation: a callback returns an error only when an
underlying sink write fails, and then it is the sink's own error value
unchanged; on a sink that cannot fail every callback succeeds, producing
exactly the pure writer's bytes — the writer itself raises no
format-level validation error (in particular a coordinate whose supplied
z/m values contradict the declared dimensionality still succeeds); and a
success means no write overran the sink's failure threshold (every write
stayed within it, or nothing was written). -/
theorem error_propagation :
    (∀ (w : WkbWriterF) (e : Event) (ec : Nat),
      processEventF w e = .error ec → ec = w.sink.errCode) ∧
    (∀ (w : WkbWriterF) (e : Event), w.sink.failAt = none →
      processEventF w e = .ok (pureToF (processEvent w.toPure e) none w.sink.errCode)) ∧
    (∀ (w w2 : WkbWriterF) (e : Event) (n : Nat),
      processEventF w e = .ok w2 → w.sink.failAt = some n →
      w2.sink.bytes.length ≤ n ∨ w2.sink.bytes.length = w.sink.bytes.length) ∧
    (∀ (w : WkbWriterF) (x y : Nat) (z m t : Option Nat) (tm : Option Nat) (i : Nat),
      w.sink.failAt = none →
      ∃ w2, w.coordinate x y z m t tm i = Except.ok w2) := by
  refine ⟨?_, ?_, ?_, ?_⟩
  · intro w e ec h
    have M : processEventF w e = modelsRhs (fun v => processEvent v e) w :=
      (models_processEvent e).2 w
    cases hfa : w.sink.failAt with
    | none =>
        rw [modelsRhs_none _ _ hfa] at M
        rw [M] at h
        simp [modelsOk] at h
    | some n =>
        rw [modelsRhs_some _ _ n hfa] at M
        rw [M] at h
        by_cases hc : (processEvent w.toPure e).out.length ≤ n ∨
            (processEvent w.toPure e).out.length = w.sink.bytes.length
        · rw [if_pos hc] at h
          simp [modelsOk] at h
        · rw [if_neg hc] at h
          exact (Except.error.injEq _ _ ▸ congrArg id h : w.sink.errCode = ec).symm
  · intro w e hfa
    have M : processEventF w e = modelsRhs (fun v => processEvent v e) w :=
      (models_processEvent e).2 w
    rw [modelsRhs_none _ _ hfa] at M
    rw [M]
    simp [modelsOk, hfa]
  · intro w w2 e n h hfa
    have M : processEventF w e = modelsRhs (fun v => processEvent v e) w :=
      (models_processEvent e).2 w
    rw [modelsRhs_some _ _ n hfa] at M
    rw [M] at h
    by_cases hc : (processEvent w.toPure e).out.length ≤ n ∨
        (processEvent w.toPure e).out.length = w.sink.bytes.length
    · rw [if_pos hc] at h
      simp only [modelsOk, Except.ok.injEq] at h
      rw [← h, pureToF_bytes]
      exact hc
    · rw [if_neg hc] at h
      simp at h
  · intro w x y z m t tm i hfa
    have M : w.coordinate x y z m t tm i =
        modelsRhs (fun v => v.coordinate x y z m t tm i) w :=
      (models_coordinate x y z m t tm i).2 w
    rw [modelsRhs_none _ _ hfa] at M
    exact ⟨_, M⟩

theorem error_propagation_witness :
    ∃ w2, WkbWriterF.coordinate (pureToF WkbWriter.new none 7) 1 2 (some 3) none none
      none 0 = Except.ok w2 :=
  error_propagation.2.2.2 (pureToF WkbWriter.new none 7) 1 2 (some 3) none none none 0 rfl

end GeozeroWkb
